import Mathlib

/-!
shadowsocks-tiny, `crypto.c`: the per-link IV handshake and the streaming
encrypt / decrypt operations.

The C functions `add_iv`, `receive_iv`, `check_cipher`, `crypto_encrypt` and
`crypto_decrypt` are embedded as pure functions on an explicit system state;
`get_method` and `crypto_init` as functions from the file-scope variables to an
outcome (a return code with the new variables, or the exit of the process).

* C buffers are lists of bytes holding the whole memory region (the capacity is
  the length of the list); the `*_len` counters say how many leading bytes are
  valid, exactly as in `struct link`.
* The OpenSSL entry points (`RAND_bytes`, `EVP_*Init_ex`, `EVP_*Update`) are
  external: they are fields of an environment `Env`, every theorem holds for
  every environment, and each call is appended to a call record kept in the
  state, so that "this call is never reached" is a statement about the state.
* `SS_IV_SENT` / `SS_IV_RECEIVED` come from `common.h`, which is not part of the
  sources; they are environment parameters (bit masks tested with `&`, set
  with `|=`).
-/

set_option linter.unusedVariables false

namespace Crypto

/-- Raw bytes of a C buffer. -/
abbrev Bytes := List Nat

/-- The C call `memcpy(dst, src, n)` on buffers that start at `dst` and `src`:
the first `n` bytes of `dst` become the first `n` bytes of `src`. -/
def memcpy (dst src : Bytes) (n : Nat) : Bytes :=
  src.take n ++ dst.drop n

/-- The C assignment `buf[i] = '\0'`. -/
def put_nul (buf : Bytes) (i : Nat) : Bytes :=
  buf.set i 0

/-- An OpenSSL cipher descriptor (`const EVP_CIPHER *`), as far as `crypto.c`
looks at it: a name, `EVP_CIPHER_key_length` and `EVP_CIPHER_iv_length`. -/
structure EVP_CIPHER where
  name : String
  key_length : Nat
  iv_length : Nat
deriving DecidableEq, Repr

/-- Which of the two per-link pointer pairs (`local_iv`/`local_ctx` or
`server_iv`/`server_ctx`) the `sockfd` comparison chain selected. -/
inductive Dir where
  | local_side
  | server_side
deriving DecidableEq, Repr

/-- One call into the OpenSSL library, with the context it was made on and the
bytes handed over. -/
inductive Call where
  | RAND_bytes (d : Dir) (num : Nat)
  | EVP_EncryptInit_ex (d : Dir) (key iv : Bytes)
  | EVP_DecryptInit_ex (d : Dir) (key iv : Bytes)
  | EVP_EncryptUpdate (d : Dir) (inp : Bytes)
  | EVP_DecryptUpdate (d : Dir) (inp : Bytes)
deriving DecidableEq, Repr

/-- The collaborators of `crypto.c` that are not in the sources: the two state
bits of `common.h` and the OpenSSL entry points. Every library function returns
its C return code, the new context (or generator state) and the bytes it wrote
to its output buffer. -/
structure Env (Ctx R : Type) where
  SS_IV_SENT : Nat
  SS_IV_RECEIVED : Nat
  RAND_bytes : R → Nat → Int × Bytes × R
  EVP_EncryptInit_ex : Ctx → EVP_CIPHER → Bytes → Bytes → Int × Ctx
  EVP_DecryptInit_ex : Ctx → EVP_CIPHER → Bytes → Bytes → Int × Ctx
  EVP_EncryptUpdate : Ctx → Bytes → Int × Ctx × Bytes
  EVP_DecryptUpdate : Ctx → Bytes → Int × Ctx × Bytes

/-- The file-scope variables of `crypto.c` that `get_method` fills in once:
`iv_len`, `evp_cipher`, `key`, `key_len`. -/
structure Globals where
  iv_len : Nat
  evp_cipher : EVP_CIPHER
  key : Bytes
  key_len : Nat
deriving DecidableEq, Repr

/-- Modelled from the spec: `struct link` is declared in `common.h`, which is
not among the sources. These are the fields `crypto.c` reads and writes: one
`state` word for the whole link, the two socket identifiers, one IV buffer and
one cipher context per direction, and the text and cipher buffers with their
length counters. -/
structure link (Ctx : Type) where
  state : Nat
  local_sockfd : Int
  server_sockfd : Int
  local_iv : Bytes
  server_iv : Bytes
  local_ctx : Ctx
  server_ctx : Ctx
  text : Bytes
  text_len : Nat
  cipher : Bytes
  cipher_len : Nat
deriving DecidableEq, Repr

/-- The state the functions of `crypto.c` act on: the link, the state of the
random generator, and the record of library calls made so far. -/
structure Sys (Ctx R : Type) where
  ln : link Ctx
  rng : R
  calls : List Call
deriving DecidableEq, Repr

section Model

variable {Ctx R : Type}

/-- The comparison chain `if (sockfd == ln->local_sockfd) ... else if (sockfd ==
ln->server_sockfd) ... else goto err;` that opens every function. -/
def direction (sockfd : Int) (ln : link Ctx) : Option Dir :=
  if sockfd = ln.local_sockfd then some Dir.local_side
  else if sockfd = ln.server_sockfd then some Dir.server_side
  else none

/-- Read through `iv_p`. -/
def get_iv (d : Dir) (ln : link Ctx) : Bytes :=
  match d with
  | Dir.local_side => ln.local_iv
  | Dir.server_side => ln.server_iv

/-- Write through `iv_p`. -/
def set_iv (d : Dir) (ln : link Ctx) (iv : Bytes) : link Ctx :=
  match d with
  | Dir.local_side => { ln with local_iv := iv }
  | Dir.server_side => { ln with server_iv := iv }

/-- Read through `ctx_p`. -/
def get_ctx (d : Dir) (ln : link Ctx) : Ctx :=
  match d with
  | Dir.local_side => ln.local_ctx
  | Dir.server_side => ln.server_ctx

/-- Write through `ctx_p`. -/
def set_ctx (d : Dir) (ln : link Ctx) (c : Ctx) : link Ctx :=
  match d with
  | Dir.local_side => { ln with local_ctx := c }
  | Dir.server_side => { ln with server_ctx := c }

/-- Modelled from the spec: `add_data` lives in a source file that is not
present; this is its use on the "cipher" buffer, the only one `crypto.c` makes.
When `size` more bytes fit, the buffered bytes move up by `size`, the first
`size` bytes of `data` are written in front of them and `cipher_len` grows by
`size` (return 0); otherwise nothing changes (return -1). -/
def add_data (ln : link Ctx) (data : Bytes) (size : Nat) : Int × link Ctx :=
  if ln.cipher_len + size ≤ ln.cipher.length then
    (0, { ln with
            cipher := data.take size ++ ln.cipher.take ln.cipher_len
                        ++ ln.cipher.drop (size + ln.cipher_len),
            cipher_len := ln.cipher_len + size })
  else (-1, ln)

/-- Modelled from the spec: `rm_data` lives in a source file that is not
present; this is its use on the "cipher" buffer. When at least `size` bytes are
buffered, they are removed from the front, the rest is shifted left and
`cipher_len` shrinks by `size` (return 0); otherwise nothing changes
(return -1). -/
def rm_data (ln : link Ctx) (size : Nat) : Int × link Ctx :=
  if size ≤ ln.cipher_len then
    (0, { ln with
            cipher := (ln.cipher.drop size).take (ln.cipher_len - size)
                        ++ ln.cipher.drop (ln.cipher_len - size),
            cipher_len := ln.cipher_len - size })
  else (-1, ln)

/-- The C function `add_iv` (crypto.c:94). -/
def add_iv (E : Env Ctx R) (G : Globals) (sockfd : Int) (s : Sys Ctx R) :
    Int × Sys Ctx R :=
  match direction sockfd s.ln with
  | none => (-1, s)
  | some d =>
    let r := add_data s.ln (get_iv d s.ln) G.iv_len
    if r.1 ≠ 0 then (-1, { s with ln := r.2 })
    else (0, { s with ln := { r.2 with state := r.2.state ||| E.SS_IV_SENT } })

/-- The C function `receive_iv` (crypto.c:119). The `memcpy` reads the raw
cipher buffer, whatever `cipher_len` is, before `rm_data` is asked. -/
def receive_iv (E : Env Ctx R) (G : Globals) (sockfd : Int) (s : Sys Ctx R) :
    Int × Sys Ctx R :=
  match direction sockfd s.ln with
  | none => (-1, s)
  | some d =>
    let ln1 := set_iv d s.ln (memcpy (get_iv d s.ln) s.ln.cipher G.iv_len)
    let r := rm_data ln1 G.iv_len
    if r.1 ≠ 0 then (-1, { s with ln := r.2 })
    else (0, { s with ln := { r.2 with state := r.2.state ||| E.SS_IV_RECEIVED } })

/-- The "encrypt" branch of `check_cipher` (crypto.c:162-172), entered when
`SS_IV_SENT` is clear. The library reads `iv_len` bytes through `iv_p`. -/
def check_cipher_encrypt (E : Env Ctx R) (G : Globals) (d : Dir) (s : Sys Ctx R) :
    Int × Sys Ctx R :=
  let r := E.RAND_bytes s.rng G.iv_len
  let s1 : Sys Ctx R :=
    { ln := set_iv d s.ln (memcpy (get_iv d s.ln) r.2.1 r.2.1.length),
      rng := r.2.2,
      calls := s.calls ++ [Call.RAND_bytes d G.iv_len] }
  if r.1 = -1 then (-1, s1)
  else
    let ln2 := set_iv d s1.ln (put_nul (get_iv d s1.ln) G.iv_len)
    let iv := (get_iv d ln2).take G.iv_len
    let i := E.EVP_EncryptInit_ex (get_ctx d ln2) G.evp_cipher G.key iv
    let s3 : Sys Ctx R :=
      { ln := set_ctx d ln2 i.2,
        rng := s1.rng,
        calls := s1.calls ++ [Call.EVP_EncryptInit_ex d G.key iv] }
    if i.1 ≠ 1 then (-1, s3) else (0, s3)

/-- The "decrypt" branch of `check_cipher` (crypto.c:175-183), entered when
`SS_IV_RECEIVED` is clear. -/
def check_cipher_decrypt (E : Env Ctx R) (G : Globals) (sockfd : Int) (d : Dir)
    (s : Sys Ctx R) : Int × Sys Ctx R :=
  let r := receive_iv E G sockfd s
  if r.1 = -1 then (-1, r.2)
  else
    let s1 := r.2
    let iv := (get_iv d s1.ln).take G.iv_len
    let i := E.EVP_DecryptInit_ex (get_ctx d s1.ln) G.evp_cipher G.key iv
    let s2 : Sys Ctx R :=
      { ln := set_ctx d s1.ln i.2,
        rng := s1.rng,
        calls := s1.calls ++ [Call.EVP_DecryptInit_ex d G.key iv] }
    if i.1 ≠ 1 then (-1, s2) else (0, s2)

/-- The C function `check_cipher` (crypto.c:144). -/
def check_cipher (E : Env Ctx R) (G : Globals) (sockfd : Int) (s : Sys Ctx R)
    (type : String) : Int × Sys Ctx R :=
  match direction sockfd s.ln with
  | none => (-1, s)
  | some d =>
    if type = "encrypt" ∧ s.ln.state &&& E.SS_IV_SENT = 0 then
      check_cipher_encrypt E G d s
    else if type = "decrypt" ∧ s.ln.state &&& E.SS_IV_RECEIVED = 0 then
      check_cipher_decrypt E G sockfd d s
    else (0, s)

/-- The C function `crypto_encrypt` (crypto.c:192). -/
def crypto_encrypt (E : Env Ctx R) (G : Globals) (sockfd : Int) (s : Sys Ctx R) :
    Int × Sys Ctx R :=
  let c := check_cipher E G sockfd s "encrypt"
  if c.1 = -1 then (-1, c.2)
  else
    let s1 := c.2
    match direction sockfd s1.ln with
    | none => (-1, s1)
    | some d =>
      let inp := s1.ln.text.take s1.ln.text_len
      let u := E.EVP_EncryptUpdate (get_ctx d s1.ln) inp
      let s2 : Sys Ctx R :=
        { ln := set_ctx d { s1.ln with cipher := memcpy s1.ln.cipher u.2.2 u.2.2.length } u.2.1,
          rng := s1.rng,
          calls := s1.calls ++ [Call.EVP_EncryptUpdate d inp] }
      if u.1 ≠ 1 then (-1, s2)
      else
        let s3 : Sys Ctx R := { s2 with ln := { s2.ln with cipher_len := u.2.2.length } }
        if s3.ln.state &&& E.SS_IV_SENT = 0 then
          let a := add_iv E G sockfd s3
          if a.1 = -1 then (-1, a.2)
          else
            (Int.ofNat a.2.ln.cipher_len, { a.2 with ln := { a.2.ln with text_len := 0 } })
        else
          (Int.ofNat s3.ln.cipher_len, { s3 with ln := { s3.ln with text_len := 0 } })

/-- The C function `crypto_decrypt` (crypto.c:230). -/
def crypto_decrypt (E : Env Ctx R) (G : Globals) (sockfd : Int) (s : Sys Ctx R) :
    Int × Sys Ctx R :=
  let c := check_cipher E G sockfd s "decrypt"
  if c.1 = -1 then (-1, c.2)
  else
    let s1 := c.2
    match direction sockfd s1.ln with
    | none => (-1, s1)
    | some d =>
      let inp := s1.ln.cipher.take s1.ln.cipher_len
      let u := E.EVP_DecryptUpdate (get_ctx d s1.ln) inp
      let s2 : Sys Ctx R :=
        { ln := set_ctx d { s1.ln with text := memcpy s1.ln.text u.2.2 u.2.2.length } u.2.1,
          rng := s1.rng,
          calls := s1.calls ++ [Call.EVP_DecryptUpdate d inp] }
      if u.1 ≠ 1 then (-1, s2)
      else
        (Int.ofNat u.2.2.length,
          { s2 with ln := { s2.ln with text_len := u.2.2.length, cipher_len := 0 } })

/-! ## A small executable environment

A keyed XOR stream cipher and a counter-driven byte generator: enough to run the
model on concrete links. `EVP_*Update` on a context that was never initialised
fails, as the library does. -/

/-- Context of the XOR stream cipher: whether it was initialised, the key and IV
it was initialised with, and the stream position. -/
structure XorCtx where
  ready : Bool
  key : Bytes
  iv : Bytes
  pos : Nat
deriving DecidableEq, Repr

/-- Key stream byte at position `pos`. -/
def xor_pad (key iv : Bytes) (pos : Nat) : Nat :=
  (key.sum + iv.sum + pos) % 256

/-- XOR of `inp` with the key stream starting at position `pos`. -/
def xor_stream (key iv : Bytes) (pos : Nat) : Bytes → Bytes
  | [] => []
  | b :: bs => (b ^^^ xor_pad key iv pos) :: xor_stream key iv (pos + 1) bs

/-- Initialisation of an XOR context with a key and an IV. -/
def xor_init (_c : XorCtx) (_cph : EVP_CIPHER) (key iv : Bytes) : Int × XorCtx :=
  (1, { ready := true, key := key, iv := iv, pos := 0 })

/-- One transform call on an XOR context. -/
def xor_update (c : XorCtx) (inp : Bytes) : Int × XorCtx × Bytes :=
  if c.ready then
    (1, { c with pos := c.pos + inp.length }, xor_stream c.key c.iv c.pos inp)
  else (0, c, [])

/-- Byte generator driven by a counter. -/
def counter_rand (r : Nat) (n : Nat) : Int × Bytes × Nat :=
  (1, (List.range n).map (fun i => (r * 16 + i + 1) % 256), r + 1)

/-- The executable environment. -/
def xor_env : Env XorCtx Nat where
  SS_IV_SENT := 4
  SS_IV_RECEIVED := 8
  RAND_bytes := counter_rand
  EVP_EncryptInit_ex := xor_init
  EVP_DecryptInit_ex := xor_init
  EVP_EncryptUpdate := xor_update
  EVP_DecryptUpdate := xor_update

/-- Process-wide configuration with a 16-byte key and a 16-byte IV. -/
def aes128 : Globals where
  iv_len := 16
  evp_cipher := { name := "aes-128-cfb", key_length := 16, iv_length := 16 }
  key := (List.range 16).map (fun i => i + 65) ++ [0]
  key_len := 16

/-- Process-wide configuration with a 2-byte IV, for short examples. -/
def tiny2 : Globals where
  iv_len := 2
  evp_cipher := { name := "tiny", key_length := 2, iv_length := 2 }
  key := [7, 9, 0]
  key_len := 2

/-- A context nobody has initialised. -/
def xor_blank : XorCtx :=
  { ready := false, key := [], iv := [], pos := 0 }

/-- A link as it is right after creation: no state bit set, both contexts
blank, zeroed buffers of the given capacities, sockets 3 (local) and 4
(server). -/
def fresh_link (ivcap textcap ciphercap : Nat) : link XorCtx :=
  { state := 0, local_sockfd := 3, server_sockfd := 4,
    local_iv := List.replicate ivcap 0, server_iv := List.replicate ivcap 0,
    local_ctx := xor_blank, server_ctx := xor_blank,
    text := List.replicate textcap 0, text_len := 0,
    cipher := List.replicate ciphercap 0, cipher_len := 0 }

/-- A system around a fresh link, generator at its start, no call made yet. -/
def fresh_sys (ivcap textcap ciphercap : Nat) : Sys XorCtx Nat :=
  { ln := fresh_link ivcap textcap ciphercap, rng := 0, calls := [] }

/-- The bytes of "hello". -/
def hello : Bytes := [104, 101, 108, 108, 111]

/-- What the I/O layer does before an encrypt: put `p` in the text buffer. -/
def load_text (p : Bytes) (s : Sys Ctx R) : Sys Ctx R :=
  { s with ln := { s.ln with text := memcpy s.ln.text p p.length, text_len := p.length } }

/-- What the I/O layer does before a decrypt: put `b` in the cipher buffer. -/
def load_cipher (b : Bytes) (s : Sys Ctx R) : Sys Ctx R :=
  { s with ln := { s.ln with cipher := memcpy s.ln.cipher b b.length, cipher_len := b.length } }

/-- Between two calls the I/O layer may leave any bytes `buf`, `len` of them
valid, in the text buffer. -/
def with_text (buf : Bytes) (len : Nat) (s : Sys Ctx R) : Sys Ctx R :=
  { s with ln := { s.ln with text := buf, text_len := len } }

/-- Between two calls the I/O layer may leave any bytes `buf`, `len` of them
valid, in the cipher buffer. -/
def with_cipher (buf : Bytes) (len : Nat) (s : Sys Ctx R) : Sys Ctx R :=
  { s with ln := { s.ln with cipher := buf, cipher_len := len } }

/-! ## Names for the library calls of a first encrypt / first decrypt -/

/-- Direction `d`'s IV buffer after the `RAND_bytes` call and the NUL store of
the "encrypt" branch of `check_cipher`. -/
def iv_generated (E : Env Ctx R) (G : Globals) (d : Dir) (s : Sys Ctx R) : Bytes :=
  put_nul (memcpy (get_iv d s.ln) (E.RAND_bytes s.rng G.iv_len).2.1
            (E.RAND_bytes s.rng G.iv_len).2.1.length) G.iv_len

/-- The `EVP_EncryptInit_ex` call of the "encrypt" branch of `check_cipher`. -/
def first_EncryptInit (E : Env Ctx R) (G : Globals) (d : Dir) (s : Sys Ctx R) : Int × Ctx :=
  E.EVP_EncryptInit_ex (get_ctx d s.ln) G.evp_cipher G.key
    ((iv_generated E G d s).take G.iv_len)

/-- The `EVP_EncryptUpdate` call that follows it in `crypto_encrypt`. -/
def first_EncryptUpdate (E : Env Ctx R) (G : Globals) (d : Dir) (s : Sys Ctx R) :
    Int × Ctx × Bytes :=
  E.EVP_EncryptUpdate (first_EncryptInit E G d s).2 (s.ln.text.take s.ln.text_len)

/-- Direction `d`'s IV buffer after the `memcpy` of `receive_iv`. -/
def iv_extracted (G : Globals) (d : Dir) (s : Sys Ctx R) : Bytes :=
  memcpy (get_iv d s.ln) s.ln.cipher G.iv_len

/-- The `EVP_DecryptInit_ex` call of the "decrypt" branch of `check_cipher`. -/
def first_DecryptInit (E : Env Ctx R) (G : Globals) (d : Dir) (s : Sys Ctx R) : Int × Ctx :=
  E.EVP_DecryptInit_ex (get_ctx d s.ln) G.evp_cipher G.key
    ((iv_extracted G d s).take G.iv_len)

/-- The `EVP_DecryptUpdate` call that follows it in `crypto_decrypt`, over what
`rm_data` left in the cipher buffer. -/
def first_DecryptUpdate (E : Env Ctx R) (G : Globals) (d : Dir) (s : Sys Ctx R) :
    Int × Ctx × Bytes :=
  E.EVP_DecryptUpdate (first_DecryptInit E G d s).2
    ((rm_data s.ln G.iv_len).2.cipher.take (rm_data s.ln G.iv_len).2.cipher_len)

/-! ## Chunk after chunk on one socket -/

/-- Encrypt the chunks `ps` one after the other on socket `sockfd`: each chunk
is put in the text buffer, `crypto_encrypt` is called, and the `cipher_len`
bytes of the cipher buffer go on the wire. The result is what went on the wire,
or `none` as soon as one call fails. -/
def encrypt_chunks (E : Env Ctx R) (G : Globals) (sockfd : Int) :
    Sys Ctx R → List Bytes → Option (Bytes × Sys Ctx R)
  | s, [] => some ([], s)
  | s, p :: ps =>
    if (crypto_encrypt E G sockfd (load_text p s)).1 < 0 then none
    else
      match encrypt_chunks E G sockfd (crypto_encrypt E G sockfd (load_text p s)).2 ps with
      | none => none
      | some (w, s') =>
        some ((crypto_encrypt E G sockfd (load_text p s)).2.ln.cipher.take
                (crypto_encrypt E G sockfd (load_text p s)).2.ln.cipher_len ++ w, s')

/-- The concatenated outputs of successive `EVP_EncryptUpdate` calls on one
context, and the context they leave; `none` as soon as one call fails. -/
def update_chunks (E : Env Ctx R) : Ctx → List Bytes → Option (Bytes × Ctx)
  | c, [] => some ([], c)
  | c, p :: ps =>
    if (E.EVP_EncryptUpdate c p).1 ≠ 1 then none
    else
      match update_chunks E (E.EVP_EncryptUpdate c p).2.1 ps with
      | none => none
      | some (w, c') => some ((E.EVP_EncryptUpdate c p).2.2 ++ w, c')

/-! ## Key and method setup: `get_method`, `crypto_init` -/

/-- An OpenSSL digest descriptor (`const EVP_MD *`). -/
structure EVP_MD where
  name : String
deriving DecidableEq, Repr

/-- The library functions of the key setup: the two lookups by name return
`none` for the C `NULL`, and `EVP_BytesToKey` (no salt, one round) returns its C
return code with the key bytes it wrote. -/
structure KeyLib where
  EVP_get_digestbyname : String → Option EVP_MD
  EVP_get_cipherbyname : String → Option EVP_CIPHER
  EVP_BytesToKey : EVP_CIPHER → EVP_MD → Bytes → Int × Bytes

/-- Modelled from the spec: `ss_opt` is the option record of `common.h`, which is
not among the sources; `method` is the one field `crypto.c` reads, the statically
configured method name. -/
structure ss_option where
  method : String
deriving DecidableEq, Repr

/-- The file-scope variables of `crypto.c` (lines 18-22) as storage: the two
descriptor pointers may be `NULL`. -/
structure Statics where
  iv_len : Nat
  evp_cipher : Option EVP_CIPHER
  md : Option EVP_MD
  key : Bytes
  key_len : Nat
deriving DecidableEq, Repr

/-- How a setup function ends: it returns a code, leaving the file-scope
variables in some state, or the process exits. -/
inductive Outcome where
  | returned (ret : Int) (st : Statics)
  | exited
deriving DecidableEq, Repr

/-- The table `supported_method` (crypto.c:24-39), commented-out entries left
out as the compiler leaves them out. -/
def supported_method : List String :=
  ["aes-128-cfb", "aes-192-cfb", "aes-256-cfb", "bf-cfb", "cast5-cfb", "des-cfb",
   "rc2-cfb", "rc4", "seed-cfb"]

/-- The C function `get_method` (crypto.c:41). The label `err` ends in
`pr_exit`, a macro of `common.h` that is not among the sources. Modelled from
the spec: it is the fatal startup error, the process exits. The cipher is looked
up under `ss_opt.method`; the parameter `method` is not read, and neither is
`supported_method`. -/
def get_method (L : KeyLib) (ss_opt : ss_option) (st : Statics) (password : Bytes)
    (method : String) : Outcome :=
  match L.EVP_get_digestbyname "MD5" with
  | none => Outcome.exited
  | some md =>
    match L.EVP_get_cipherbyname ss_opt.method with
    | none => Outcome.exited
    | some c =>
      let k := L.EVP_BytesToKey c md password
      if k.1 = 0 then Outcome.exited
      else
        Outcome.returned 0
          { iv_len := c.iv_length,
            evp_cipher := some c,
            md := some md,
            key := put_nul (memcpy st.key k.2 k.2.length) c.key_length,
            key_len := c.key_length }

/-- The C function `crypto_init` (crypto.c:72). The library start-up calls
compiled in for old OpenSSL versions do not touch the variables of
`crypto.c`. -/
def crypto_init (L : KeyLib) (ss_opt : ss_option) (st : Statics) (password : Bytes)
    (method : String) : Outcome :=
  match get_method L ss_opt st password method with
  | Outcome.exited => Outcome.exited
  | Outcome.returned ret st1 =>
    if ret = -1 then Outcome.returned (-1) st1 else Outcome.returned 0 st1

/-- The configuration the link operations read, once the setup has returned. -/
def globals_of (st : Statics) : Option Globals :=
  match st.evp_cipher with
  | none => none
  | some c => some { iv_len := st.iv_len, evp_cipher := c, key := st.key, key_len := st.key_len }

/-- The file-scope variables at program start: zero-initialised storage, the key
array of `EVP_MAX_KEY_LENGTH = 64` bytes. -/
def statics0 : Statics :=
  { iv_len := 0, evp_cipher := none, md := none, key := List.replicate 64 0, key_len := 0 }

/-- The ciphers the executable library knows by name; "aes-128-ctr" and
"chacha20" are among them and are not in `supported_method`. -/
def demo_ciphers : List EVP_CIPHER :=
  [{ name := "aes-128-cfb", key_length := 16, iv_length := 16 },
   { name := "aes-256-cfb", key_length := 32, iv_length := 16 },
   { name := "rc4", key_length := 16, iv_length := 0 },
   { name := "aes-128-ctr", key_length := 16, iv_length := 16 },
   { name := "chacha20", key_length := 32, iv_length := 16 }]

/-- An executable key-setup library: MD5 is the one digest, the ciphers are
those of `demo_ciphers`, and the key is spun out of the sum of the password
bytes. -/
def demo_lib : KeyLib where
  EVP_get_digestbyname := fun n => if n = "MD5" then some { name := "MD5" } else none
  EVP_get_cipherbyname := fun n => demo_ciphers.find? (fun c => c.name = n)
  EVP_BytesToKey := fun c _ data =>
    (Int.ofNat c.key_length, (List.range c.key_length).map (fun i => (data.sum + i) % 256))

/-- The bytes of "test-pw". -/
def test_pw : Bytes := [116, 101, 115, 116, 45, 112, 119]

/-! ## A library whose `EVP_DecryptInit_ex` fails -/

/-- The executable environment, except that `EVP_DecryptInit_ex` reports a
failure and leaves the context alone. -/
def init_fail_env : Env XorCtx Nat :=
  { xor_env with EVP_DecryptInit_ex := fun c _ _ _ => (0, c) }

/-! ## Sequences of operations on a link -/

/-- One step on a link: a call of one of the five functions of `crypto.c` that
take a link, or the I/O layer refilling the text or the cipher buffer. -/
inductive Op where
  | add_iv (sockfd : Int)
  | receive_iv (sockfd : Int)
  | check_cipher (sockfd : Int) (type : String)
  | crypto_encrypt (sockfd : Int)
  | crypto_decrypt (sockfd : Int)
  | fill_text (buf : Bytes) (len : Nat)
  | fill_cipher (buf : Bytes) (len : Nat)
deriving DecidableEq, Repr

/-- The state after one step, whatever the step returned. -/
def run_op (E : Env Ctx R) (G : Globals) (o : Op) (s : Sys Ctx R) : Sys Ctx R :=
  match o with
  | Op.add_iv fd => (add_iv E G fd s).2
  | Op.receive_iv fd => (receive_iv E G fd s).2
  | Op.check_cipher fd type => (check_cipher E G fd s type).2
  | Op.crypto_encrypt fd => (crypto_encrypt E G fd s).2
  | Op.crypto_decrypt fd => (crypto_decrypt E G fd s).2
  | Op.fill_text buf len => with_text buf len s
  | Op.fill_cipher buf len => with_cipher buf len s

/-- The state after a sequence of steps. -/
def run_ops (E : Env Ctx R) (G : Globals) : List Op → Sys Ctx R → Sys Ctx R
  | [], s => s
  | o :: os, s => run_ops E G os (run_op E G o s)

end Model

end Crypto

namespace Crypto

section Lemmas

variable {Ctx R : Type}

/-! ## Pointer selection: what writing through `iv_p` / `ctx_p` leaves alone -/

@[simp] theorem set_iv_state (d : Dir) (ln : link Ctx) (v : Bytes) :
    (set_iv d ln v).state = ln.state := by cases d <;> rfl

@[simp] theorem set_iv_local_sockfd (d : Dir) (ln : link Ctx) (v : Bytes) :
    (set_iv d ln v).local_sockfd = ln.local_sockfd := by cases d <;> rfl

@[simp] theorem set_iv_server_sockfd (d : Dir) (ln : link Ctx) (v : Bytes) :
    (set_iv d ln v).server_sockfd = ln.server_sockfd := by cases d <;> rfl

@[simp] theorem set_iv_text (d : Dir) (ln : link Ctx) (v : Bytes) :
    (set_iv d ln v).text = ln.text := by cases d <;> rfl

@[simp] theorem set_iv_text_len (d : Dir) (ln : link Ctx) (v : Bytes) :
    (set_iv d ln v).text_len = ln.text_len := by cases d <;> rfl

@[simp] theorem set_iv_cipher (d : Dir) (ln : link Ctx) (v : Bytes) :
    (set_iv d ln v).cipher = ln.cipher := by cases d <;> rfl

@[simp] theorem set_iv_cipher_len (d : Dir) (ln : link Ctx) (v : Bytes) :
    (set_iv d ln v).cipher_len = ln.cipher_len := by cases d <;> rfl

@[simp] theorem set_ctx_state (d : Dir) (ln : link Ctx) (c : Ctx) :
    (set_ctx d ln c).state = ln.state := by cases d <;> rfl

@[simp] theorem set_ctx_local_sockfd (d : Dir) (ln : link Ctx) (c : Ctx) :
    (set_ctx d ln c).local_sockfd = ln.local_sockfd := by cases d <;> rfl

@[simp] theorem set_ctx_server_sockfd (d : Dir) (ln : link Ctx) (c : Ctx) :
    (set_ctx d ln c).server_sockfd = ln.server_sockfd := by cases d <;> rfl

@[simp] theorem set_ctx_text (d : Dir) (ln : link Ctx) (c : Ctx) :
    (set_ctx d ln c).text = ln.text := by cases d <;> rfl

@[simp] theorem set_ctx_text_len (d : Dir) (ln : link Ctx) (c : Ctx) :
    (set_ctx d ln c).text_len = ln.text_len := by cases d <;> rfl

@[simp] theorem set_ctx_cipher (d : Dir) (ln : link Ctx) (c : Ctx) :
    (set_ctx d ln c).cipher = ln.cipher := by cases d <;> rfl

@[simp] theorem set_ctx_cipher_len (d : Dir) (ln : link Ctx) (c : Ctx) :
    (set_ctx d ln c).cipher_len = ln.cipher_len := by cases d <;> rfl

@[simp] theorem get_iv_set_iv (d : Dir) (ln : link Ctx) (v : Bytes) :
    get_iv d (set_iv d ln v) = v := by cases d <;> rfl

@[simp] theorem get_ctx_set_ctx (d : Dir) (ln : link Ctx) (c : Ctx) :
    get_ctx d (set_ctx d ln c) = c := by cases d <;> rfl

@[simp] theorem get_iv_set_ctx (d e : Dir) (ln : link Ctx) (c : Ctx) :
    get_iv d (set_ctx e ln c) = get_iv d ln := by cases d <;> cases e <;> rfl

@[simp] theorem get_ctx_set_iv (d e : Dir) (ln : link Ctx) (v : Bytes) :
    get_ctx d (set_iv e ln v) = get_ctx d ln := by cases d <;> cases e <;> rfl

@[simp] theorem set_iv_set_iv (d : Dir) (ln : link Ctx) (v w : Bytes) :
    set_iv d (set_iv d ln v) w = set_iv d ln w := by cases d <;> rfl

@[simp] theorem set_ctx_set_ctx (d : Dir) (ln : link Ctx) (c e : Ctx) :
    set_ctx d (set_ctx d ln c) e = set_ctx d ln e := by cases d <;> rfl

theorem get_iv_set_iv_ne {d e : Dir} (h : d ≠ e) (ln : link Ctx) (v : Bytes) :
    get_iv d (set_iv e ln v) = get_iv d ln := by
  cases d <;> cases e <;> first | rfl | exact absurd rfl h

theorem get_ctx_set_ctx_ne {d e : Dir} (h : d ≠ e) (ln : link Ctx) (c : Ctx) :
    get_ctx d (set_ctx e ln c) = get_ctx d ln := by
  cases d <;> cases e <;> first | rfl | exact absurd rfl h

@[simp] theorem direction_set_iv (sockfd : Int) (d : Dir) (ln : link Ctx) (v : Bytes) :
    direction sockfd (set_iv d ln v) = direction sockfd ln := by
  simp [direction]

@[simp] theorem direction_set_ctx (sockfd : Int) (d : Dir) (ln : link Ctx) (c : Ctx) :
    direction sockfd (set_ctx d ln c) = direction sockfd ln := by
  simp [direction]

theorem direction_eq_local (sockfd : Int) (ln : link Ctx) :
    direction sockfd ln = some Dir.local_side ↔ sockfd = ln.local_sockfd := by
  unfold direction
  split_ifs <;> simp_all

theorem direction_eq_server (sockfd : Int) (ln : link Ctx) :
    direction sockfd ln = some Dir.server_side ↔
      sockfd ≠ ln.local_sockfd ∧ sockfd = ln.server_sockfd := by
  unfold direction
  split_ifs <;> simp_all

theorem direction_eq_none (sockfd : Int) (ln : link Ctx) :
    direction sockfd ln = none ↔
      sockfd ≠ ln.local_sockfd ∧ sockfd ≠ ln.server_sockfd := by
  unfold direction
  split_ifs <;> simp_all

/-! ## Buffers -/

theorem memcpy_all_take (dst src : Bytes) :
    (memcpy dst src src.length).take src.length = src := by
  simp [memcpy]

theorem memcpy_all_length (dst src : Bytes) :
    (memcpy dst src src.length).length = max src.length dst.length := by
  simp [memcpy]; omega

theorem take_queued (iv out rest : Bytes) (k : Nat) (hk : iv.length = k) :
    List.take (out.length + k) (iv ++ (out ++ rest)) = iv ++ out := by
  subst hk
  rw [← List.append_assoc]
  have h : out.length + iv.length = (iv ++ out).length := by simp; omega
  rw [h, List.take_left]

/-- A buffer whose valid part is `V ++ C` starts with `V`, followed by `C`. -/
theorem split_buffered (buf V C : Bytes) (len k : Nat) (hV : V.length = k)
    (hlen : len = k + C.length) (hbuf : buf.take len = V ++ C) :
    buf.take k = V ∧ (buf.drop k).take C.length = C := by
  subst hV hlen
  have h1 : (buf.take (V.length + C.length)).take V.length = V := by
    rw [hbuf, List.take_left]
  have h2 : (buf.take (V.length + C.length)).drop V.length = C := by
    rw [hbuf, List.drop_left]
  rw [List.take_take] at h1
  rw [List.drop_take] at h2
  constructor
  · simpa using h1
  · simpa using h2

theorem take_put_nul (buf : Bytes) (n : Nat) : (put_nul buf n).take n = buf.take n := by
  unfold put_nul
  induction buf generalizing n with
  | nil => simp
  | cons b bs ih =>
    cases n with
    | zero => simp
    | succ k => simp [List.set, ih]

/-! ## State bits -/

theorem or_and_self_ne_zero (s m : Nat) (hm : m ≠ 0) : (s ||| m) &&& m ≠ 0 := by
  have h : (s ||| m) &&& m = m := by
    apply Nat.eq_of_testBit_eq
    intro i
    simp only [Nat.testBit_and, Nat.testBit_or]
    cases s.testBit i <;> cases m.testBit i <;> rfl
  rw [h]; exact hm

/-! ## The IV-ensure step -/

/-- The IV bytes the library reads after `RAND_bytes` wrote `iv` and the NUL
terminator was stored behind it. -/
theorem take_after_rand (buf iv : Bytes) (n : Nat) (h : iv.length = n) :
    (put_nul (memcpy buf iv iv.length) n).take n = iv := by
  rw [take_put_nul, ← h, memcpy_all_take]

/-- The function `check_cipher` is the identity on the state when the flag of its role is
already set (or the role is neither "encrypt" nor "decrypt"). -/
theorem check_cipher_noop (E : Env Ctx R) (G : Globals) (sockfd : Int) (s : Sys Ctx R)
    (type : String) (d : Dir) (hd : direction sockfd s.ln = some d)
    (henc : type = "encrypt" → s.ln.state &&& E.SS_IV_SENT ≠ 0)
    (hdec : type = "decrypt" → s.ln.state &&& E.SS_IV_RECEIVED ≠ 0) :
    check_cipher E G sockfd s type = (0, s) := by
  unfold check_cipher
  rw [hd]
  simp only
  rw [if_neg (fun h => henc h.1 h.2), if_neg (fun h => hdec h.1 h.2)]

/-- An unknown socket stops `check_cipher` before anything is touched. -/
theorem check_cipher_unknown (E : Env Ctx R) (G : Globals) (sockfd : Int) (s : Sys Ctx R)
    (type : String) (hd : direction sockfd s.ln = none) :
    check_cipher E G sockfd s type = (-1, s) := by
  unfold check_cipher
  rw [hd]

/-- Outside the first use of a role, `crypto_encrypt` is just one
`EVP_EncryptUpdate` on the selected context: with `SS_IV_SENT` set it draws no
IV, initialises nothing and queues nothing. -/
theorem crypto_encrypt_sent (E : Env Ctx R) (G : Globals) (sockfd : Int) (s : Sys Ctx R)
    (d : Dir) (hd : direction sockfd s.ln = some d)
    (hsent : s.ln.state &&& E.SS_IV_SENT ≠ 0) :
    crypto_encrypt E G sockfd s =
      if (E.EVP_EncryptUpdate (get_ctx d s.ln) (s.ln.text.take s.ln.text_len)).1 ≠ 1 then
        (-1,
          { ln := set_ctx d
              { s.ln with
                cipher := memcpy s.ln.cipher
                  (E.EVP_EncryptUpdate (get_ctx d s.ln) (s.ln.text.take s.ln.text_len)).2.2
                  (E.EVP_EncryptUpdate (get_ctx d s.ln)
                    (s.ln.text.take s.ln.text_len)).2.2.length }
              (E.EVP_EncryptUpdate (get_ctx d s.ln) (s.ln.text.take s.ln.text_len)).2.1,
            rng := s.rng,
            calls := s.calls ++ [Call.EVP_EncryptUpdate d (s.ln.text.take s.ln.text_len)] })
      else
        (Int.ofNat
            (E.EVP_EncryptUpdate (get_ctx d s.ln) (s.ln.text.take s.ln.text_len)).2.2.length,
          { ln := set_ctx d
              { s.ln with
                cipher := memcpy s.ln.cipher
                  (E.EVP_EncryptUpdate (get_ctx d s.ln) (s.ln.text.take s.ln.text_len)).2.2
                  (E.EVP_EncryptUpdate (get_ctx d s.ln)
                    (s.ln.text.take s.ln.text_len)).2.2.length,
                cipher_len :=
                  (E.EVP_EncryptUpdate (get_ctx d s.ln)
                    (s.ln.text.take s.ln.text_len)).2.2.length,
                text_len := 0 }
              (E.EVP_EncryptUpdate (get_ctx d s.ln) (s.ln.text.take s.ln.text_len)).2.1,
            rng := s.rng,
            calls := s.calls ++ [Call.EVP_EncryptUpdate d (s.ln.text.take s.ln.text_len)] }) := by
  have hcc := check_cipher_noop E G sockfd s "encrypt" d hd (fun _ => hsent)
    (fun h => absurd h (by decide))
  unfold crypto_encrypt
  simp only [hcc, hd]
  cases d <;> simp [hsent, set_ctx]

/-- With `SS_IV_RECEIVED` set, `crypto_decrypt` is just one `EVP_DecryptUpdate`
over the whole buffered cipher text on the selected context. -/
theorem crypto_decrypt_received (E : Env Ctx R) (G : Globals) (sockfd : Int)
    (s : Sys Ctx R) (d : Dir) (hd : direction sockfd s.ln = some d)
    (hrecv : s.ln.state &&& E.SS_IV_RECEIVED ≠ 0) :
    crypto_decrypt E G sockfd s =
      if (E.EVP_DecryptUpdate (get_ctx d s.ln) (s.ln.cipher.take s.ln.cipher_len)).1 ≠ 1 then
        (-1,
          { ln := set_ctx d
              { s.ln with
                text := memcpy s.ln.text
                  (E.EVP_DecryptUpdate (get_ctx d s.ln) (s.ln.cipher.take s.ln.cipher_len)).2.2
                  (E.EVP_DecryptUpdate (get_ctx d s.ln)
                    (s.ln.cipher.take s.ln.cipher_len)).2.2.length }
              (E.EVP_DecryptUpdate (get_ctx d s.ln) (s.ln.cipher.take s.ln.cipher_len)).2.1,
            rng := s.rng,
            calls := s.calls ++ [Call.EVP_DecryptUpdate d (s.ln.cipher.take s.ln.cipher_len)] })
      else
        (Int.ofNat
            (E.EVP_DecryptUpdate (get_ctx d s.ln) (s.ln.cipher.take s.ln.cipher_len)).2.2.length,
          { ln := set_ctx d
              { s.ln with
                text := memcpy s.ln.text
                  (E.EVP_DecryptUpdate (get_ctx d s.ln) (s.ln.cipher.take s.ln.cipher_len)).2.2
                  (E.EVP_DecryptUpdate (get_ctx d s.ln)
                    (s.ln.cipher.take s.ln.cipher_len)).2.2.length,
                text_len :=
                  (E.EVP_DecryptUpdate (get_ctx d s.ln)
                    (s.ln.cipher.take s.ln.cipher_len)).2.2.length,
                cipher_len := 0 }
              (E.EVP_DecryptUpdate (get_ctx d s.ln) (s.ln.cipher.take s.ln.cipher_len)).2.1,
            rng := s.rng,
            calls := s.calls ++ [Call.EVP_DecryptUpdate d (s.ln.cipher.take s.ln.cipher_len)] }) := by
  have hcc := check_cipher_noop E G sockfd s "decrypt" d hd (fun h => absurd h (by decide))
    (fun _ => hrecv)
  unfold crypto_decrypt
  simp only [hcc, hd]
  cases d <;> simp [set_ctx]

/-! ## The first encrypt and the first decrypt, when every step succeeds -/

/-- The state a first `crypto_encrypt` leaves when `RAND_bytes` does not
return -1, `EVP_EncryptInit_ex` and `EVP_EncryptUpdate` return 1 and `add_data`
finds room for the IV. -/
theorem crypto_encrypt_first_eq (E : Env Ctx R) (G : Globals) (sockfd : Int)
    (s : Sys Ctx R) (d : Dir) (hd : direction sockfd s.ln = some d)
    (hsent : s.ln.state &&& E.SS_IV_SENT = 0)
    (hr : (E.RAND_bytes s.rng G.iv_len).1 ≠ -1)
    (hi : (first_EncryptInit E G d s).1 = 1)
    (hu : (first_EncryptUpdate E G d s).1 = 1)
    (hfit : (first_EncryptUpdate E G d s).2.2.length + G.iv_len ≤
      max (first_EncryptUpdate E G d s).2.2.length s.ln.cipher.length) :
    crypto_encrypt E G sockfd s =
      (Int.ofNat ((first_EncryptUpdate E G d s).2.2.length + G.iv_len),
        { ln := set_ctx d (set_iv d
                  { s.ln with
                    state := s.ln.state ||| E.SS_IV_SENT,
                    text_len := 0,
                    cipher := (iv_generated E G d s).take G.iv_len ++
                      (first_EncryptUpdate E G d s).2.2 ++
                      (memcpy s.ln.cipher (first_EncryptUpdate E G d s).2.2
                        (first_EncryptUpdate E G d s).2.2.length).drop
                        (G.iv_len + (first_EncryptUpdate E G d s).2.2.length),
                    cipher_len := (first_EncryptUpdate E G d s).2.2.length + G.iv_len }
                  (iv_generated E G d s))
                (first_EncryptUpdate E G d s).2.1,
          rng := (E.RAND_bytes s.rng G.iv_len).2.2,
          calls := s.calls ++
            [Call.RAND_bytes d G.iv_len,
             Call.EVP_EncryptInit_ex d G.key ((iv_generated E G d s).take G.iv_len),
             Call.EVP_EncryptUpdate d (s.ln.text.take s.ln.text_len)] }) := by
  rw [← memcpy_all_length s.ln.cipher] at hfit
  cases d
  · have h := (direction_eq_local sockfd s.ln).1 hd
    subst h
    simp only [first_EncryptUpdate, first_EncryptInit, iv_generated, get_iv, get_ctx]
      at hi hu hfit
    simp [crypto_encrypt, check_cipher, check_cipher_encrypt, direction, set_ctx, set_iv,
      get_iv, get_ctx, hsent, add_iv, add_data, hr, hi, hu, hfit, first_EncryptUpdate,
      first_EncryptInit, iv_generated, memcpy_all_take]
  · obtain ⟨h1, h2⟩ := (direction_eq_server sockfd s.ln).1 hd
    subst h2
    simp only [first_EncryptUpdate, first_EncryptInit, iv_generated, get_iv, get_ctx]
      at hi hu hfit
    simp [crypto_encrypt, check_cipher, check_cipher_encrypt, direction, set_ctx, set_iv,
      get_iv, get_ctx, hsent, add_iv, add_data, hr, hi, hu, hfit, h1, first_EncryptUpdate,
      first_EncryptInit, iv_generated, memcpy_all_take]

/-- The state a first `crypto_decrypt` leaves when at least `iv_len` bytes are
buffered and `EVP_DecryptInit_ex` and `EVP_DecryptUpdate` return 1. -/
theorem crypto_decrypt_first_eq (E : Env Ctx R) (G : Globals) (sockfd : Int)
    (s : Sys Ctx R) (d : Dir) (hd : direction sockfd s.ln = some d)
    (hrecv : s.ln.state &&& E.SS_IV_RECEIVED = 0)
    (hrm : G.iv_len ≤ s.ln.cipher_len)
    (hi : (first_DecryptInit E G d s).1 = 1)
    (hu : (first_DecryptUpdate E G d s).1 = 1) :
    crypto_decrypt E G sockfd s =
      (Int.ofNat (first_DecryptUpdate E G d s).2.2.length,
        { ln := set_ctx d (set_iv d
                  { s.ln with
                    state := s.ln.state ||| E.SS_IV_RECEIVED,
                    text := memcpy s.ln.text (first_DecryptUpdate E G d s).2.2
                      (first_DecryptUpdate E G d s).2.2.length,
                    text_len := (first_DecryptUpdate E G d s).2.2.length,
                    cipher := (rm_data s.ln G.iv_len).2.cipher,
                    cipher_len := 0 }
                  (iv_extracted G d s))
                (first_DecryptUpdate E G d s).2.1,
          rng := s.rng,
          calls := s.calls ++
            [Call.EVP_DecryptInit_ex d G.key ((iv_extracted G d s).take G.iv_len),
             Call.EVP_DecryptUpdate d
               ((rm_data s.ln G.iv_len).2.cipher.take (rm_data s.ln G.iv_len).2.cipher_len)] }) := by
  cases d
  · have h := (direction_eq_local sockfd s.ln).1 hd
    subst h
    simp only [first_DecryptUpdate, first_DecryptInit, iv_extracted, get_iv, get_ctx, rm_data,
      if_pos hrm] at hi hu
    simp [crypto_decrypt, check_cipher, check_cipher_decrypt, receive_iv, rm_data, direction,
      set_ctx, set_iv, get_iv, get_ctx, hrecv, hrm, hi, hu, first_DecryptUpdate,
      first_DecryptInit, iv_extracted]
  · obtain ⟨h1, h2⟩ := (direction_eq_server sockfd s.ln).1 hd
    subst h2
    simp only [first_DecryptUpdate, first_DecryptInit, iv_extracted, get_iv, get_ctx, rm_data,
      if_pos hrm] at hi hu
    simp [crypto_decrypt, check_cipher, check_cipher_decrypt, receive_iv, rm_data, direction,
      set_ctx, set_iv, get_iv, get_ctx, hrecv, hrm, hi, hu, h1, first_DecryptUpdate,
      first_DecryptInit, iv_extracted]

/-! ## The socket identifiers are never written -/

theorem add_data_fst (ln : link Ctx) (data : Bytes) (size : Nat) :
    (add_data ln data size).1 = 0 ∨ (add_data ln data size).1 = -1 := by
  unfold add_data; split_ifs <;> simp

theorem rm_data_fst (ln : link Ctx) (size : Nat) :
    (rm_data ln size).1 = 0 ∨ (rm_data ln size).1 = -1 := by
  unfold rm_data; split_ifs <;> simp

theorem add_iv_local_sockfd (E : Env Ctx R) (G : Globals) (sockfd : Int) (s : Sys Ctx R) :
    (add_iv E G sockfd s).2.ln.local_sockfd = s.ln.local_sockfd := by
  unfold add_iv add_data
  cases direction sockfd s.ln <;> simp
  split_ifs <;> simp

theorem add_iv_server_sockfd (E : Env Ctx R) (G : Globals) (sockfd : Int) (s : Sys Ctx R) :
    (add_iv E G sockfd s).2.ln.server_sockfd = s.ln.server_sockfd := by
  unfold add_iv add_data
  cases direction sockfd s.ln <;> simp
  split_ifs <;> simp

theorem receive_iv_local_sockfd (E : Env Ctx R) (G : Globals) (sockfd : Int)
    (s : Sys Ctx R) :
    (receive_iv E G sockfd s).2.ln.local_sockfd = s.ln.local_sockfd := by
  unfold receive_iv rm_data
  cases direction sockfd s.ln <;> simp
  split_ifs <;> simp

theorem receive_iv_server_sockfd (E : Env Ctx R) (G : Globals) (sockfd : Int)
    (s : Sys Ctx R) :
    (receive_iv E G sockfd s).2.ln.server_sockfd = s.ln.server_sockfd := by
  unfold receive_iv rm_data
  cases direction sockfd s.ln <;> simp
  split_ifs <;> simp

theorem check_cipher_local_sockfd (E : Env Ctx R) (G : Globals) (sockfd : Int)
    (s : Sys Ctx R) (type : String) :
    (check_cipher E G sockfd s type).2.ln.local_sockfd = s.ln.local_sockfd := by
  unfold check_cipher check_cipher_encrypt check_cipher_decrypt
  cases direction sockfd s.ln <;> simp
  split_ifs <;> simp [receive_iv_local_sockfd]

theorem check_cipher_server_sockfd (E : Env Ctx R) (G : Globals) (sockfd : Int)
    (s : Sys Ctx R) (type : String) :
    (check_cipher E G sockfd s type).2.ln.server_sockfd = s.ln.server_sockfd := by
  unfold check_cipher check_cipher_encrypt check_cipher_decrypt
  cases direction sockfd s.ln <;> simp
  split_ifs <;> simp [receive_iv_server_sockfd]

theorem direction_congr (fd : Int) (a b : link Ctx)
    (h1 : a.local_sockfd = b.local_sockfd) (h2 : a.server_sockfd = b.server_sockfd) :
    direction fd a = direction fd b := by
  simp [direction, h1, h2]

theorem check_cipher_direction (E : Env Ctx R) (G : Globals) (sockfd fd : Int)
    (s : Sys Ctx R) (type : String) :
    direction fd (check_cipher E G sockfd s type).2.ln = direction fd s.ln :=
  direction_congr fd _ _ (check_cipher_local_sockfd E G sockfd s type)
    (check_cipher_server_sockfd E G sockfd s type)

theorem crypto_encrypt_local_sockfd (E : Env Ctx R) (G : Globals) (sockfd : Int)
    (s : Sys Ctx R) :
    (crypto_encrypt E G sockfd s).2.ln.local_sockfd = s.ln.local_sockfd := by
  unfold crypto_encrypt
  simp only [check_cipher_direction]
  cases direction sockfd s.ln <;> simp only [] <;> split_ifs <;>
    simp [check_cipher_local_sockfd, add_iv_local_sockfd]

theorem crypto_encrypt_server_sockfd (E : Env Ctx R) (G : Globals) (sockfd : Int)
    (s : Sys Ctx R) :
    (crypto_encrypt E G sockfd s).2.ln.server_sockfd = s.ln.server_sockfd := by
  unfold crypto_encrypt
  simp only [check_cipher_direction]
  cases direction sockfd s.ln <;> simp only [] <;> split_ifs <;>
    simp [check_cipher_server_sockfd, add_iv_server_sockfd]

theorem crypto_decrypt_local_sockfd (E : Env Ctx R) (G : Globals) (sockfd : Int)
    (s : Sys Ctx R) :
    (crypto_decrypt E G sockfd s).2.ln.local_sockfd = s.ln.local_sockfd := by
  unfold crypto_decrypt
  simp only [check_cipher_direction]
  cases direction sockfd s.ln <;> simp only [] <;> split_ifs <;>
    simp [check_cipher_local_sockfd]

theorem crypto_decrypt_server_sockfd (E : Env Ctx R) (G : Globals) (sockfd : Int)
    (s : Sys Ctx R) :
    (crypto_decrypt E G sockfd s).2.ln.server_sockfd = s.ln.server_sockfd := by
  unfold crypto_decrypt
  simp only [check_cipher_direction]
  cases direction sockfd s.ln <;> simp only [] <;> split_ifs <;>
    simp [check_cipher_server_sockfd]

theorem crypto_encrypt_direction (E : Env Ctx R) (G : Globals) (sockfd fd : Int)
    (s : Sys Ctx R) :
    direction fd (crypto_encrypt E G sockfd s).2.ln = direction fd s.ln :=
  direction_congr fd _ _ (crypto_encrypt_local_sockfd E G sockfd s)
    (crypto_encrypt_server_sockfd E G sockfd s)

theorem crypto_decrypt_direction (E : Env Ctx R) (G : Globals) (sockfd fd : Int)
    (s : Sys Ctx R) :
    direction fd (crypto_decrypt E G sockfd s).2.ln = direction fd s.ln :=
  direction_congr fd _ _ (crypto_decrypt_local_sockfd E G sockfd s)
    (crypto_decrypt_server_sockfd E G sockfd s)

/-! ## What the steps leave alone -/

theorem add_iv_text (E : Env Ctx R) (G : Globals) (sockfd : Int) (s : Sys Ctx R) :
    (add_iv E G sockfd s).2.ln.text = s.ln.text ∧
    (add_iv E G sockfd s).2.ln.text_len = s.ln.text_len := by
  unfold add_iv add_data
  cases direction sockfd s.ln <;> simp
  split_ifs <;> simp

theorem receive_iv_text (E : Env Ctx R) (G : Globals) (sockfd : Int) (s : Sys Ctx R) :
    (receive_iv E G sockfd s).2.ln.text = s.ln.text ∧
    (receive_iv E G sockfd s).2.ln.text_len = s.ln.text_len := by
  unfold receive_iv rm_data
  cases direction sockfd s.ln <;> simp
  split_ifs <;> simp

theorem check_cipher_text (E : Env Ctx R) (G : Globals) (sockfd : Int) (s : Sys Ctx R)
    (type : String) :
    (check_cipher E G sockfd s type).2.ln.text = s.ln.text ∧
    (check_cipher E G sockfd s type).2.ln.text_len = s.ln.text_len := by
  unfold check_cipher check_cipher_encrypt check_cipher_decrypt
  cases direction sockfd s.ln <;> simp
  split_ifs <;> simp [receive_iv_text]

/-- The "encrypt" role of `check_cipher` never writes `ln->state`: `SS_IV_SENT`
is only set later, by `add_iv`. -/
theorem check_cipher_encrypt_state (E : Env Ctx R) (G : Globals) (sockfd : Int)
    (s : Sys Ctx R) :
    (check_cipher E G sockfd s "encrypt").2.ln.state = s.ln.state := by
  unfold check_cipher check_cipher_encrypt
  cases direction sockfd s.ln <;> simp
  split_ifs <;> simp

/-- The function `add_iv` returns 0 having set `SS_IV_SENT`, or -1 having left `ln->state`
as it was. -/
theorem add_iv_state (E : Env Ctx R) (G : Globals) (sockfd : Int) (s : Sys Ctx R) :
    ((add_iv E G sockfd s).1 = 0 ∧
      (add_iv E G sockfd s).2.ln.state = s.ln.state ||| E.SS_IV_SENT) ∨
    ((add_iv E G sockfd s).1 = -1 ∧ (add_iv E G sockfd s).2.ln.state = s.ln.state) := by
  unfold add_iv add_data
  cases direction sockfd s.ln <;> simp
  split_ifs <;> simp

/-- What the three library calls of a first encrypt are, once their results are
named. -/
theorem first_encrypt_values (E : Env Ctx R) (G : Globals) (d : Dir) (s : Sys Ctx R)
    (r : Int) (iv out : Bytes) (rng1 : R) (c1 c2 : Ctx)
    (hrand : E.RAND_bytes s.rng G.iv_len = (r, iv, rng1))
    (hivlen : iv.length = G.iv_len)
    (hinit : E.EVP_EncryptInit_ex (get_ctx d s.ln) G.evp_cipher G.key iv = (1, c1))
    (hupd : E.EVP_EncryptUpdate c1 (s.ln.text.take s.ln.text_len) = (1, c2, out)) :
    (iv_generated E G d s).take G.iv_len = iv ∧
    first_EncryptInit E G d s = (1, c1) ∧
    first_EncryptUpdate E G d s = (1, c2, out) := by
  have h1 : (iv_generated E G d s).take G.iv_len = iv := by
    simp only [iv_generated, hrand]
    exact take_after_rand _ _ _ hivlen
  have h2 : first_EncryptInit E G d s = (1, c1) := by
    simp only [first_EncryptInit, h1, hinit]
  have h3 : first_EncryptUpdate E G d s = (1, c2, out) := by
    simp only [first_EncryptUpdate, h2, hupd]
  exact ⟨h1, h2, h3⟩

/-- What the two library calls of a first decrypt are, when the cipher buffer
holds `V ++ C` with `|V| = iv_len`. -/
theorem first_decrypt_values (E : Env Ctx R) (G : Globals) (d : Dir) (s : Sys Ctx R)
    (V C out : Bytes) (c1 c2 : Ctx)
    (hV : V.length = G.iv_len)
    (hlen : s.ln.cipher_len = G.iv_len + C.length)
    (hbuf : s.ln.cipher.take s.ln.cipher_len = V ++ C)
    (hinit : E.EVP_DecryptInit_ex (get_ctx d s.ln) G.evp_cipher G.key V = (1, c1))
    (hupd : E.EVP_DecryptUpdate c1 C = (1, c2, out)) :
    (iv_extracted G d s).take G.iv_len = V ∧
    (rm_data s.ln G.iv_len).2.cipher.take (rm_data s.ln G.iv_len).2.cipher_len = C ∧
    first_DecryptInit E G d s = (1, c1) ∧
    first_DecryptUpdate E G d s = (1, c2, out) := by
  have hsplit := split_buffered s.ln.cipher V C s.ln.cipher_len G.iv_len hV hlen hbuf
  have hrm : G.iv_len ≤ s.ln.cipher_len := by omega
  have h1 : (iv_extracted G d s).take G.iv_len = V := by
    simp [iv_extracted, memcpy, hsplit.1, List.take_left' hV]
  have h0 : (rm_data s.ln G.iv_len).2.cipher.take (rm_data s.ln G.iv_len).2.cipher_len = C := by
    simp [rm_data, hrm, hlen, hsplit.2]
  have h2 : first_DecryptInit E G d s = (1, c1) := by
    simp only [first_DecryptInit, h1, hinit]
  have h3 : first_DecryptUpdate E G d s = (1, c2, out) := by
    simp only [first_DecryptUpdate, h2, h0, hupd]
  exact ⟨h1, h0, h2, h3⟩

/-! ## A first encrypt that did not return -1 went through every step -/

theorem crypto_encrypt_first_inv (E : Env Ctx R) (G : Globals) (sockfd : Int)
    (s : Sys Ctx R) (d : Dir) (hd : direction sockfd s.ln = some d)
    (hsent : s.ln.state &&& E.SS_IV_SENT = 0)
    (hok : (crypto_encrypt E G sockfd s).1 ≠ -1) :
    (E.RAND_bytes s.rng G.iv_len).1 ≠ -1 ∧
    (first_EncryptInit E G d s).1 = 1 ∧
    (first_EncryptUpdate E G d s).1 = 1 ∧
    (first_EncryptUpdate E G d s).2.2.length + G.iv_len ≤
      max (first_EncryptUpdate E G d s).2.2.length s.ln.cipher.length := by
  rw [← memcpy_all_length s.ln.cipher]
  cases d
  · have h := (direction_eq_local sockfd s.ln).1 hd
    subst h
    simp only [first_EncryptUpdate, first_EncryptInit, iv_generated, get_iv, get_ctx]
    by_cases hr : (E.RAND_bytes s.rng G.iv_len).1 = -1
    · exfalso; apply hok
      simp [crypto_encrypt, check_cipher, check_cipher_encrypt, direction, hsent, hr]
    refine ⟨hr, ?_⟩
    by_cases hi : (E.EVP_EncryptInit_ex s.ln.local_ctx G.evp_cipher G.key
        (List.take G.iv_len (put_nul (memcpy s.ln.local_iv (E.RAND_bytes s.rng G.iv_len).2.1
          (E.RAND_bytes s.rng G.iv_len).2.1.length) G.iv_len))).1 = 1
    swap
    · exfalso; apply hok
      simp [crypto_encrypt, check_cipher, check_cipher_encrypt, direction, hsent, hr, hi,
        set_iv, set_ctx, get_iv, get_ctx]
    refine ⟨hi, ?_⟩
    by_cases hu : (E.EVP_EncryptUpdate
        (E.EVP_EncryptInit_ex s.ln.local_ctx G.evp_cipher G.key
          (List.take G.iv_len (put_nul (memcpy s.ln.local_iv (E.RAND_bytes s.rng G.iv_len).2.1
            (E.RAND_bytes s.rng G.iv_len).2.1.length) G.iv_len))).2
        (List.take s.ln.text_len s.ln.text)).1 = 1
    swap
    · exfalso; apply hok
      simp [crypto_encrypt, check_cipher, check_cipher_encrypt, direction, hsent, hr, hi, hu,
        set_iv, set_ctx, get_iv, get_ctx]
    refine ⟨hu, ?_⟩
    by_contra hfit
    apply hok
    simp [crypto_encrypt, check_cipher, check_cipher_encrypt, direction, hsent, hr, hi, hu,
      set_iv, set_ctx, get_iv, get_ctx, add_iv, add_data, hfit]
  · obtain ⟨h1, h2⟩ := (direction_eq_server sockfd s.ln).1 hd
    subst h2
    simp only [first_EncryptUpdate, first_EncryptInit, iv_generated, get_iv, get_ctx]
    by_cases hr : (E.RAND_bytes s.rng G.iv_len).1 = -1
    · exfalso; apply hok
      simp [crypto_encrypt, check_cipher, check_cipher_encrypt, direction, hsent, hr, h1]
    refine ⟨hr, ?_⟩
    by_cases hi : (E.EVP_EncryptInit_ex s.ln.server_ctx G.evp_cipher G.key
        (List.take G.iv_len (put_nul (memcpy s.ln.server_iv (E.RAND_bytes s.rng G.iv_len).2.1
          (E.RAND_bytes s.rng G.iv_len).2.1.length) G.iv_len))).1 = 1
    swap
    · exfalso; apply hok
      simp [crypto_encrypt, check_cipher, check_cipher_encrypt, direction, hsent, hr, hi,
        set_iv, set_ctx, get_iv, get_ctx, h1]
    refine ⟨hi, ?_⟩
    by_cases hu : (E.EVP_EncryptUpdate
        (E.EVP_EncryptInit_ex s.ln.server_ctx G.evp_cipher G.key
          (List.take G.iv_len (put_nul (memcpy s.ln.server_iv (E.RAND_bytes s.rng G.iv_len).2.1
            (E.RAND_bytes s.rng G.iv_len).2.1.length) G.iv_len))).2
        (List.take s.ln.text_len s.ln.text)).1 = 1
    swap
    · exfalso; apply hok
      simp [crypto_encrypt, check_cipher, check_cipher_encrypt, direction, hsent, hr, hi, hu,
        set_iv, set_ctx, get_iv, get_ctx, h1]
    refine ⟨hu, ?_⟩
    by_contra hfit
    apply hok
    simp [crypto_encrypt, check_cipher, check_cipher_encrypt, direction, hsent, hr, hi, hu,
      set_iv, set_ctx, get_iv, get_ctx, add_iv, add_data, hfit, h1]

theorem length_put_nul (buf : Bytes) (n : Nat) : (put_nul buf n).length = buf.length := by
  simp [put_nul]

/-- The IV buffer still has room for `iv_len` bytes after `RAND_bytes` and the
NUL store. -/
theorem length_take_iv_generated (E : Env Ctx R) (G : Globals) (d : Dir) (s : Sys Ctx R)
    (hivbuf : G.iv_len ≤ (get_iv d s.ln).length) :
    ((iv_generated E G d s).take G.iv_len).length = G.iv_len := by
  simp only [iv_generated, List.length_take, length_put_nul, memcpy_all_length]
  omega

/-- XOR with the same key stream twice gives the input back. -/
theorem xor_stream_twice (key iv : Bytes) (pos : Nat) (p : Bytes) :
    xor_stream key iv pos (xor_stream key iv pos p) = p := by
  induction p generalizing pos with
  | nil => rfl
  | cons b bs ih => simp [xor_stream, Nat.xor_cancel_right, ih]

/-- In the executable environment, decryption under a key and IV inverts
encryption under the same key and IV. -/
theorem xor_env_inverts (G : Globals) (ca cb : XorCtx) (V P : Bytes) :
    (xor_env.EVP_EncryptInit_ex ca G.evp_cipher G.key V).1 = 1 →
    (xor_env.EVP_EncryptUpdate (xor_env.EVP_EncryptInit_ex ca G.evp_cipher G.key V).2 P).1 = 1 →
    (xor_env.EVP_DecryptInit_ex cb G.evp_cipher G.key V).1 = 1 ∧
    (xor_env.EVP_DecryptUpdate (xor_env.EVP_DecryptInit_ex cb G.evp_cipher G.key V).2
      (xor_env.EVP_EncryptUpdate
        (xor_env.EVP_EncryptInit_ex ca G.evp_cipher G.key V).2 P).2.2).1 = 1 ∧
    (xor_env.EVP_DecryptUpdate (xor_env.EVP_DecryptInit_ex cb G.evp_cipher G.key V).2
      (xor_env.EVP_EncryptUpdate
        (xor_env.EVP_EncryptInit_ex ca G.evp_cipher G.key V).2 P).2.2).2.2 = P := by
  intro _ _
  simp [xor_env, xor_init, xor_update, xor_stream_twice]

/-! ## A first decrypt that did not return -1 went through every step -/

theorem crypto_decrypt_first_inv (E : Env Ctx R) (G : Globals) (sockfd : Int)
    (s : Sys Ctx R) (d : Dir) (hd : direction sockfd s.ln = some d)
    (hrecv : s.ln.state &&& E.SS_IV_RECEIVED = 0)
    (hok : (crypto_decrypt E G sockfd s).1 ≠ -1) :
    G.iv_len ≤ s.ln.cipher_len ∧
    (first_DecryptInit E G d s).1 = 1 ∧
    (first_DecryptUpdate E G d s).1 = 1 := by
  cases d
  · have h := (direction_eq_local sockfd s.ln).1 hd
    subst h
    simp only [first_DecryptUpdate, first_DecryptInit, iv_extracted, get_iv, get_ctx]
    by_cases hrm : G.iv_len ≤ s.ln.cipher_len
    swap
    · exfalso; apply hok
      simp [crypto_decrypt, check_cipher, check_cipher_decrypt, receive_iv, rm_data, direction,
        set_iv, set_ctx, get_iv, get_ctx, hrecv, hrm]
    refine ⟨hrm, ?_⟩
    by_cases hi : (E.EVP_DecryptInit_ex s.ln.local_ctx G.evp_cipher G.key
        (List.take G.iv_len (memcpy s.ln.local_iv s.ln.cipher G.iv_len))).1 = 1
    swap
    · exfalso; apply hok
      simp [crypto_decrypt, check_cipher, check_cipher_decrypt, receive_iv, rm_data, direction,
        set_iv, set_ctx, get_iv, get_ctx, hrecv, hrm, hi]
    refine ⟨hi, ?_⟩
    by_contra hu
    apply hok
    simp only [rm_data, if_pos hrm] at hu
    simp [crypto_decrypt, check_cipher, check_cipher_decrypt, receive_iv, rm_data, direction,
      set_iv, set_ctx, get_iv, get_ctx, hrecv, hrm, hi, hu]
  · obtain ⟨h1, h2⟩ := (direction_eq_server sockfd s.ln).1 hd
    subst h2
    simp only [first_DecryptUpdate, first_DecryptInit, iv_extracted, get_iv, get_ctx]
    by_cases hrm : G.iv_len ≤ s.ln.cipher_len
    swap
    · exfalso; apply hok
      simp [crypto_decrypt, check_cipher, check_cipher_decrypt, receive_iv, rm_data, direction,
        set_iv, set_ctx, get_iv, get_ctx, hrecv, hrm, h1]
    refine ⟨hrm, ?_⟩
    by_cases hi : (E.EVP_DecryptInit_ex s.ln.server_ctx G.evp_cipher G.key
        (List.take G.iv_len (memcpy s.ln.server_iv s.ln.cipher G.iv_len))).1 = 1
    swap
    · exfalso; apply hok
      simp [crypto_decrypt, check_cipher, check_cipher_decrypt, receive_iv, rm_data, direction,
        set_iv, set_ctx, get_iv, get_ctx, hrecv, hrm, hi, h1]
    refine ⟨hi, ?_⟩
    by_contra hu
    apply hok
    simp only [rm_data, if_pos hrm] at hu
    simp [crypto_decrypt, check_cipher, check_cipher_decrypt, receive_iv, rm_data, direction,
      set_iv, set_ctx, get_iv, get_ctx, hrecv, hrm, hi, hu, h1]

/-! ## Refilling a buffer between two calls -/

@[simp] theorem with_text_rng (buf : Bytes) (len : Nat) (s : Sys Ctx R) :
    (with_text buf len s).rng = s.rng := rfl

@[simp] theorem with_text_calls (buf : Bytes) (len : Nat) (s : Sys Ctx R) :
    (with_text buf len s).calls = s.calls := rfl

@[simp] theorem with_text_state (buf : Bytes) (len : Nat) (s : Sys Ctx R) :
    (with_text buf len s).ln.state = s.ln.state := rfl

@[simp] theorem with_text_text (buf : Bytes) (len : Nat) (s : Sys Ctx R) :
    (with_text buf len s).ln.text = buf := rfl

@[simp] theorem with_text_text_len (buf : Bytes) (len : Nat) (s : Sys Ctx R) :
    (with_text buf len s).ln.text_len = len := rfl

@[simp] theorem with_text_cipher (buf : Bytes) (len : Nat) (s : Sys Ctx R) :
    (with_text buf len s).ln.cipher = s.ln.cipher := rfl

@[simp] theorem with_text_get_iv (d : Dir) (buf : Bytes) (len : Nat) (s : Sys Ctx R) :
    get_iv d (with_text buf len s).ln = get_iv d s.ln := by cases d <;> rfl

@[simp] theorem with_text_get_ctx (d : Dir) (buf : Bytes) (len : Nat) (s : Sys Ctx R) :
    get_ctx d (with_text buf len s).ln = get_ctx d s.ln := by cases d <;> rfl

@[simp] theorem with_text_direction (fd : Int) (buf : Bytes) (len : Nat) (s : Sys Ctx R) :
    direction fd (with_text buf len s).ln = direction fd s.ln := rfl

@[simp] theorem with_cipher_rng (buf : Bytes) (len : Nat) (s : Sys Ctx R) :
    (with_cipher buf len s).rng = s.rng := rfl

@[simp] theorem with_cipher_calls (buf : Bytes) (len : Nat) (s : Sys Ctx R) :
    (with_cipher buf len s).calls = s.calls := rfl

@[simp] theorem with_cipher_state (buf : Bytes) (len : Nat) (s : Sys Ctx R) :
    (with_cipher buf len s).ln.state = s.ln.state := rfl

@[simp] theorem with_cipher_cipher (buf : Bytes) (len : Nat) (s : Sys Ctx R) :
    (with_cipher buf len s).ln.cipher = buf := rfl

@[simp] theorem with_cipher_cipher_len (buf : Bytes) (len : Nat) (s : Sys Ctx R) :
    (with_cipher buf len s).ln.cipher_len = len := rfl

@[simp] theorem with_cipher_text (buf : Bytes) (len : Nat) (s : Sys Ctx R) :
    (with_cipher buf len s).ln.text = s.ln.text := rfl

@[simp] theorem with_cipher_get_iv (d : Dir) (buf : Bytes) (len : Nat) (s : Sys Ctx R) :
    get_iv d (with_cipher buf len s).ln = get_iv d s.ln := by cases d <;> rfl

@[simp] theorem with_cipher_get_ctx (d : Dir) (buf : Bytes) (len : Nat) (s : Sys Ctx R) :
    get_ctx d (with_cipher buf len s).ln = get_ctx d s.ln := by cases d <;> rfl

@[simp] theorem with_cipher_direction (fd : Int) (buf : Bytes) (len : Nat) (s : Sys Ctx R) :
    direction fd (with_cipher buf len s).ln = direction fd s.ln := rfl

/-! ## What one `EVP_*Update`-only call leaves -/

/-- The facts about a `crypto_encrypt` made with `SS_IV_SENT` set. -/
theorem crypto_encrypt_sent_facts (E : Env Ctx R) (G : Globals) (sockfd : Int)
    (s : Sys Ctx R) (d : Dir) (hd : direction sockfd s.ln = some d)
    (hsent : s.ln.state &&& E.SS_IV_SENT ≠ 0) :
    (crypto_encrypt E G sockfd s).2.calls =
      s.calls ++ [Call.EVP_EncryptUpdate d (s.ln.text.take s.ln.text_len)] ∧
    (crypto_encrypt E G sockfd s).2.rng = s.rng ∧
    (∀ e : Dir, get_iv e (crypto_encrypt E G sockfd s).2.ln = get_iv e s.ln) ∧
    get_ctx d (crypto_encrypt E G sockfd s).2.ln =
      (E.EVP_EncryptUpdate (get_ctx d s.ln) (s.ln.text.take s.ln.text_len)).2.1 ∧
    (∀ e : Dir, e ≠ d → get_ctx e (crypto_encrypt E G sockfd s).2.ln = get_ctx e s.ln) ∧
    (crypto_encrypt E G sockfd s).2.ln.state = s.ln.state ∧
    ((E.EVP_EncryptUpdate (get_ctx d s.ln) (s.ln.text.take s.ln.text_len)).1 ≠ 1 →
      (crypto_encrypt E G sockfd s).1 = -1) ∧
    ((E.EVP_EncryptUpdate (get_ctx d s.ln) (s.ln.text.take s.ln.text_len)).1 = 1 →
      (crypto_encrypt E G sockfd s).1 =
        ((E.EVP_EncryptUpdate (get_ctx d s.ln)
          (s.ln.text.take s.ln.text_len)).2.2.length : Int) ∧
      (crypto_encrypt E G sockfd s).2.ln.cipher.take
          (crypto_encrypt E G sockfd s).2.ln.cipher_len =
        (E.EVP_EncryptUpdate (get_ctx d s.ln) (s.ln.text.take s.ln.text_len)).2.2 ∧
      (crypto_encrypt E G sockfd s).2.ln.text_len = 0) := by
  rw [crypto_encrypt_sent E G sockfd s d hd hsent]
  split_ifs with hu
  · refine ⟨rfl, rfl, ?_, by simp, ?_, by simp, fun _ => rfl, fun h => absurd h hu⟩
    · intro e; cases e <;> cases d <;> rfl
    · intro e he; cases e <;> cases d <;> first | rfl | exact absurd rfl he
  · refine ⟨rfl, rfl, ?_, by simp, ?_, by simp, fun h => absurd h hu, fun _ => ?_⟩
    · intro e; cases e <;> cases d <;> rfl
    · intro e he; cases e <;> cases d <;> first | rfl | exact absurd rfl he
    · exact ⟨rfl, by simp [memcpy_all_take], by simp⟩

/-- The facts about a `crypto_decrypt` made with `SS_IV_RECEIVED` set. -/
theorem crypto_decrypt_received_facts (E : Env Ctx R) (G : Globals) (sockfd : Int)
    (s : Sys Ctx R) (d : Dir) (hd : direction sockfd s.ln = some d)
    (hrecv : s.ln.state &&& E.SS_IV_RECEIVED ≠ 0) :
    (crypto_decrypt E G sockfd s).2.calls =
      s.calls ++ [Call.EVP_DecryptUpdate d (s.ln.cipher.take s.ln.cipher_len)] ∧
    (crypto_decrypt E G sockfd s).2.rng = s.rng ∧
    (∀ e : Dir, get_iv e (crypto_decrypt E G sockfd s).2.ln = get_iv e s.ln) ∧
    get_ctx d (crypto_decrypt E G sockfd s).2.ln =
      (E.EVP_DecryptUpdate (get_ctx d s.ln) (s.ln.cipher.take s.ln.cipher_len)).2.1 ∧
    (∀ e : Dir, e ≠ d → get_ctx e (crypto_decrypt E G sockfd s).2.ln = get_ctx e s.ln) ∧
    (crypto_decrypt E G sockfd s).2.ln.state = s.ln.state ∧
    ((E.EVP_DecryptUpdate (get_ctx d s.ln) (s.ln.cipher.take s.ln.cipher_len)).1 ≠ 1 →
      (crypto_decrypt E G sockfd s).1 = -1) ∧
    ((E.EVP_DecryptUpdate (get_ctx d s.ln) (s.ln.cipher.take s.ln.cipher_len)).1 = 1 →
      (crypto_decrypt E G sockfd s).1 =
        ((E.EVP_DecryptUpdate (get_ctx d s.ln)
          (s.ln.cipher.take s.ln.cipher_len)).2.2.length : Int) ∧
      (crypto_decrypt E G sockfd s).2.ln.text.take
          (crypto_decrypt E G sockfd s).2.ln.text_len =
        (E.EVP_DecryptUpdate (get_ctx d s.ln) (s.ln.cipher.take s.ln.cipher_len)).2.2 ∧
      (crypto_decrypt E G sockfd s).2.ln.cipher_len = 0) := by
  rw [crypto_decrypt_received E G sockfd s d hd hrecv]
  split_ifs with hu
  · refine ⟨rfl, rfl, ?_, by simp, ?_, by simp, fun _ => rfl, fun h => absurd h hu⟩
    · intro e; cases e <;> cases d <;> rfl
    · intro e he; cases e <;> cases d <;> first | rfl | exact absurd rfl he
  · refine ⟨rfl, rfl, ?_, by simp, ?_, by simp, fun h => absurd h hu, fun _ => ?_⟩
    · intro e; cases e <;> cases d <;> rfl
    · intro e he; cases e <;> cases d <;> first | rfl | exact absurd rfl he
    · exact ⟨rfl, by simp [memcpy_all_take], by simp⟩

/-! ## What a first encrypt / first decrypt that did not fail leaves -/

theorem crypto_encrypt_first_facts (E : Env Ctx R) (G : Globals) (sockfd : Int)
    (s : Sys Ctx R) (d : Dir) (hd : direction sockfd s.ln = some d)
    (hsent : s.ln.state &&& E.SS_IV_SENT = 0)
    (hok : (crypto_encrypt E G sockfd s).1 ≠ -1) :
    (crypto_encrypt E G sockfd s).1 =
      (((first_EncryptUpdate E G d s).2.2.length + G.iv_len : Nat) : Int) ∧
    (crypto_encrypt E G sockfd s).2.ln.state = s.ln.state ||| E.SS_IV_SENT ∧
    get_iv d (crypto_encrypt E G sockfd s).2.ln = iv_generated E G d s ∧
    get_ctx d (crypto_encrypt E G sockfd s).2.ln = (first_EncryptUpdate E G d s).2.1 ∧
    (∀ e : Dir, e ≠ d → get_iv e (crypto_encrypt E G sockfd s).2.ln = get_iv e s.ln) ∧
    (∀ e : Dir, e ≠ d → get_ctx e (crypto_encrypt E G sockfd s).2.ln = get_ctx e s.ln) ∧
    (crypto_encrypt E G sockfd s).2.calls = s.calls ++
      [Call.RAND_bytes d G.iv_len,
       Call.EVP_EncryptInit_ex d G.key ((iv_generated E G d s).take G.iv_len),
       Call.EVP_EncryptUpdate d (s.ln.text.take s.ln.text_len)] ∧
    (crypto_encrypt E G sockfd s).2.ln.cipher_len =
      (first_EncryptUpdate E G d s).2.2.length + G.iv_len ∧
    (crypto_encrypt E G sockfd s).2.ln.cipher =
      (iv_generated E G d s).take G.iv_len ++ (first_EncryptUpdate E G d s).2.2 ++
        (memcpy s.ln.cipher (first_EncryptUpdate E G d s).2.2
          (first_EncryptUpdate E G d s).2.2.length).drop
          (G.iv_len + (first_EncryptUpdate E G d s).2.2.length) := by
  obtain ⟨hr, hi, hu, hfit⟩ := crypto_encrypt_first_inv E G sockfd s d hd hsent hok
  rw [crypto_encrypt_first_eq E G sockfd s d hd hsent hr hi hu hfit]
  refine ⟨rfl, by simp, by simp, by simp, ?_, ?_, rfl, by simp, by simp⟩
  · intro e he; cases e <;> cases d <;> first | rfl | exact absurd rfl he
  · intro e he; cases e <;> cases d <;> first | rfl | exact absurd rfl he

theorem crypto_decrypt_first_facts (E : Env Ctx R) (G : Globals) (sockfd : Int)
    (s : Sys Ctx R) (d : Dir) (hd : direction sockfd s.ln = some d)
    (hrecv : s.ln.state &&& E.SS_IV_RECEIVED = 0)
    (hok : (crypto_decrypt E G sockfd s).1 ≠ -1) :
    (crypto_decrypt E G sockfd s).1 = ((first_DecryptUpdate E G d s).2.2.length : Int) ∧
    (crypto_decrypt E G sockfd s).2.ln.state = s.ln.state ||| E.SS_IV_RECEIVED ∧
    get_iv d (crypto_decrypt E G sockfd s).2.ln = iv_extracted G d s ∧
    get_ctx d (crypto_decrypt E G sockfd s).2.ln = (first_DecryptUpdate E G d s).2.1 ∧
    (∀ e : Dir, e ≠ d → get_iv e (crypto_decrypt E G sockfd s).2.ln = get_iv e s.ln) ∧
    (∀ e : Dir, e ≠ d → get_ctx e (crypto_decrypt E G sockfd s).2.ln = get_ctx e s.ln) ∧
    (crypto_decrypt E G sockfd s).2.calls = s.calls ++
      [Call.EVP_DecryptInit_ex d G.key ((iv_extracted G d s).take G.iv_len),
       Call.EVP_DecryptUpdate d
         ((rm_data s.ln G.iv_len).2.cipher.take (rm_data s.ln G.iv_len).2.cipher_len)] := by
  obtain ⟨hrm, hi, hu⟩ := crypto_decrypt_first_inv E G sockfd s d hd hrecv hok
  rw [crypto_decrypt_first_eq E G sockfd s d hd hrecv hrm hi hu]
  refine ⟨rfl, by simp, by simp, by simp, ?_, ?_, rfl⟩
  · intro e he; cases e <;> cases d <;> first | rfl | exact absurd rfl he
  · intro e he; cases e <;> cases d <;> first | rfl | exact absurd rfl he

/-- The function `receive_iv` returns 0 having set `SS_IV_RECEIVED`, or -1 having left
`ln->state` as it was. -/
theorem receive_iv_state (E : Env Ctx R) (G : Globals) (sockfd : Int) (s : Sys Ctx R) :
    ((receive_iv E G sockfd s).1 = 0 ∧
      (receive_iv E G sockfd s).2.ln.state = s.ln.state ||| E.SS_IV_RECEIVED) ∨
    ((receive_iv E G sockfd s).1 = -1 ∧ (receive_iv E G sockfd s).2.ln.state = s.ln.state) := by
  unfold receive_iv rm_data
  cases direction sockfd s.ln <;> simp
  split_ifs <;> simp

/-- A "decrypt" `check_cipher` that returns 0 leaves `SS_IV_RECEIVED` set. -/
theorem check_cipher_decrypt_flag (E : Env Ctx R) (G : Globals) (sockfd : Int)
    (s : Sys Ctx R) (hmR : E.SS_IV_RECEIVED ≠ 0)
    (hok : (check_cipher E G sockfd s "decrypt").1 = 0) :
    (check_cipher E G sockfd s "decrypt").2.ln.state &&& E.SS_IV_RECEIVED ≠ 0 := by
  have hflag := or_and_self_ne_zero s.ln.state E.SS_IV_RECEIVED hmR
  unfold check_cipher check_cipher_decrypt at hok ⊢
  cases hd : direction sockfd s.ln with
  | none => simp [hd] at hok
  | some d =>
    simp only [hd] at hok ⊢
    have hne : ¬ ("decrypt" = "encrypt" ∧ s.ln.state &&& E.SS_IV_SENT = 0) :=
      fun h => absurd h.1 (by decide)
    rw [if_neg hne] at hok ⊢
    by_cases hr : s.ln.state &&& E.SS_IV_RECEIVED = 0
    · rw [if_pos ⟨trivial, hr⟩] at hok ⊢
      rcases receive_iv_state E G sockfd s with ⟨h0, hst⟩ | ⟨h1, -⟩
      · split_ifs <;> simp [hst, hflag]
      · simp [h1] at hok
    · rw [if_neg (fun h => hr h.2)]
      exact hr

/-- An unknown socket stops `crypto_encrypt` before anything is touched. -/
theorem crypto_encrypt_unknown (E : Env Ctx R) (G : Globals) (sockfd : Int) (s : Sys Ctx R)
    (hd : direction sockfd s.ln = none) : crypto_encrypt E G sockfd s = (-1, s) := by
  simp [crypto_encrypt, check_cipher_unknown E G sockfd s "encrypt" hd]

/-- An unknown socket stops `crypto_decrypt` before anything is touched. -/
theorem crypto_decrypt_unknown (E : Env Ctx R) (G : Globals) (sockfd : Int) (s : Sys Ctx R)
    (hd : direction sockfd s.ln = none) : crypto_decrypt E G sockfd s = (-1, s) := by
  simp [crypto_decrypt, check_cipher_unknown E G sockfd s "decrypt" hd]

/-- A `crypto_encrypt` that did not return -1 leaves `SS_IV_SENT` set. -/
theorem crypto_encrypt_ok_flag (E : Env Ctx R) (G : Globals) (sockfd : Int) (s : Sys Ctx R)
    (hmS : E.SS_IV_SENT ≠ 0) (hok : (crypto_encrypt E G sockfd s).1 ≠ -1) :
    (crypto_encrypt E G sockfd s).2.ln.state &&& E.SS_IV_SENT ≠ 0 := by
  cases hd : direction sockfd s.ln with
  | none => rw [crypto_encrypt_unknown E G sockfd s hd] at hok; exact absurd rfl hok
  | some d =>
    by_cases hs : s.ln.state &&& E.SS_IV_SENT = 0
    · rw [(crypto_encrypt_first_facts E G sockfd s d hd hs hok).2.1]
      exact or_and_self_ne_zero _ _ hmS
    · rw [(crypto_encrypt_sent_facts E G sockfd s d hd hs).2.2.2.2.2.1]
      exact hs

@[simp] theorem load_text_direction (fd : Int) (p : Bytes) (s : Sys Ctx R) :
    direction fd (load_text p s).ln = direction fd s.ln := rfl

@[simp] theorem load_text_state (p : Bytes) (s : Sys Ctx R) :
    (load_text p s).ln.state = s.ln.state := rfl

@[simp] theorem load_text_rng (p : Bytes) (s : Sys Ctx R) :
    (load_text p s).rng = s.rng := rfl

@[simp] theorem load_text_calls (p : Bytes) (s : Sys Ctx R) :
    (load_text p s).calls = s.calls := rfl

@[simp] theorem load_text_cipher (p : Bytes) (s : Sys Ctx R) :
    (load_text p s).ln.cipher = s.ln.cipher := rfl

@[simp] theorem load_text_get_iv (d : Dir) (p : Bytes) (s : Sys Ctx R) :
    get_iv d (load_text p s).ln = get_iv d s.ln := by cases d <;> rfl

@[simp] theorem load_text_get_ctx (d : Dir) (p : Bytes) (s : Sys Ctx R) :
    get_ctx d (load_text p s).ln = get_ctx d s.ln := by cases d <;> rfl

@[simp] theorem load_text_take (p : Bytes) (s : Sys Ctx R) :
    (load_text p s).ln.text.take (load_text p s).ln.text_len = p := by
  simp [load_text, memcpy_all_take]

/-- Once `SS_IV_SENT` is set, a run of successful encrypts puts on the wire just
what the successive `EVP_EncryptUpdate` calls on the direction's context
produce, and makes no other library call. -/
theorem encrypt_chunks_sent (E : Env Ctx R) (G : Globals) (sockfd : Int) (d : Dir)
    (ps : List Bytes) :
    ∀ (s s' : Sys Ctx R) (w : Bytes), direction sockfd s.ln = some d →
      s.ln.state &&& E.SS_IV_SENT ≠ 0 →
      encrypt_chunks E G sockfd s ps = some (w, s') →
      update_chunks E (get_ctx d s.ln) ps = some (w, get_ctx d s'.ln) ∧
      s'.calls = s.calls ++ ps.map (fun p => Call.EVP_EncryptUpdate d p) ∧
      get_iv d s'.ln = get_iv d s.ln ∧ s'.rng = s.rng := by
  induction ps with
  | nil =>
    intro s s' w _ _ h
    simp only [encrypt_chunks, Option.some.injEq, Prod.mk.injEq] at h
    obtain ⟨hw, hs⟩ := h
    subst hw hs
    simp [update_chunks]
  | cons p ps ih =>
    intro s s' w hd hs h
    obtain ⟨f1, f2, f3, f4, -, f6, f7, f8⟩ := crypto_encrypt_sent_facts E G sockfd
      (load_text p s) d (by rw [load_text_direction, hd]) (by rw [load_text_state]; exact hs)
    simp only [load_text_take, load_text_get_ctx, load_text_calls, load_text_rng,
      load_text_get_iv, load_text_state] at f1 f2 f3 f4 f6 f7 f8
    simp only [encrypt_chunks] at h
    by_cases hu : (E.EVP_EncryptUpdate (get_ctx d s.ln) p).1 = 1
    · obtain ⟨g1, g2, -⟩ := f8 hu
      rw [if_neg (by rw [g1]; omega)] at h
      cases hrest : encrypt_chunks E G sockfd (crypto_encrypt E G sockfd (load_text p s)).2 ps with
      | none => rw [hrest] at h; simp at h
      | some r =>
        obtain ⟨w2, s2⟩ := r
        rw [hrest] at h
        simp only [Option.some.injEq, Prod.mk.injEq] at h
        obtain ⟨hw, hs2⟩ := h
        subst hw hs2
        obtain ⟨i1, i2, i3, i4⟩ := ih _ _ _
          (by rw [crypto_encrypt_direction, load_text_direction, hd])
          (by rw [f6]; exact hs) hrest
        rw [f4] at i1
        refine ⟨?_, ?_, ?_, ?_⟩
        · simp only [update_chunks]
          rw [if_neg (by rw [hu]; decide), i1, g2]
        · rw [i2, f1]; simp
        · rw [i3, f3 d]
        · rw [i4, f2]
    · rw [if_pos (by rw [f7 hu]; decide)] at h
      simp at h

@[simp] theorem iv_generated_load_text (E : Env Ctx R) (G : Globals) (d : Dir) (p : Bytes)
    (s : Sys Ctx R) : iv_generated E G d (load_text p s) = iv_generated E G d s := by
  simp [iv_generated]

@[simp] theorem first_EncryptInit_load_text (E : Env Ctx R) (G : Globals) (d : Dir)
    (p : Bytes) (s : Sys Ctx R) :
    first_EncryptInit E G d (load_text p s) = first_EncryptInit E G d s := by
  simp [first_EncryptInit]

@[simp] theorem first_EncryptUpdate_load_text (E : Env Ctx R) (G : Globals) (d : Dir)
    (p : Bytes) (s : Sys Ctx R) :
    first_EncryptUpdate E G d (load_text p s) =
      E.EVP_EncryptUpdate (first_EncryptInit E G d s).2 p := by
  simp [first_EncryptUpdate]

/-- A failing `add_iv` leaves `ln->state` as it was. -/
theorem add_iv_fail_state (E : Env Ctx R) (G : Globals) (sockfd : Int) (s : Sys Ctx R)
    (h : (add_iv E G sockfd s).1 = -1) : (add_iv E G sockfd s).2.ln.state = s.ln.state := by
  rcases add_iv_state E G sockfd s with ⟨h0, -⟩ | ⟨-, hs⟩
  · rw [h] at h0; exact absurd h0 (by decide)
  · exact hs

/-- The function `crypto_encrypt` returns -1 or a length. -/
theorem crypto_encrypt_ret (E : Env Ctx R) (G : Globals) (sockfd : Int) (s : Sys Ctx R) :
    (crypto_encrypt E G sockfd s).1 = -1 ∨ 0 ≤ (crypto_encrypt E G sockfd s).1 := by
  unfold crypto_encrypt
  simp only [check_cipher_direction]
  cases direction sockfd s.ln <;> simp only [] <;> split_ifs <;> simp

/-- The function `crypto_decrypt` returns -1 or a length. -/
theorem crypto_decrypt_ret (E : Env Ctx R) (G : Globals) (sockfd : Int) (s : Sys Ctx R) :
    (crypto_decrypt E G sockfd s).1 = -1 ∨ 0 ≤ (crypto_decrypt E G sockfd s).1 := by
  unfold crypto_decrypt
  simp only [check_cipher_direction]
  cases direction sockfd s.ln <;> simp only [] <;> split_ifs <;> simp

/-- A `crypto_encrypt` that returns -1 has not written the text buffer, its
length counter, or `ln->state`. -/
theorem crypto_encrypt_fail_frame (E : Env Ctx R) (G : Globals) (sockfd : Int)
    (s : Sys Ctx R) (hfail : (crypto_encrypt E G sockfd s).1 = -1) :
    (crypto_encrypt E G sockfd s).2.ln.text = s.ln.text ∧
    (crypto_encrypt E G sockfd s).2.ln.text_len = s.ln.text_len ∧
    (crypto_encrypt E G sockfd s).2.ln.state = s.ln.state := by
  have ht := check_cipher_text E G sockfd s "encrypt"
  have hst := check_cipher_encrypt_state E G sockfd s
  unfold crypto_encrypt at hfail ⊢
  simp only [check_cipher_direction] at hfail ⊢
  cases hd : direction sockfd s.ln with
  | none =>
    simp only [hd] at hfail ⊢
    split_ifs <;> exact ⟨ht.1, ht.2, hst⟩
  | some d =>
    simp only [hd] at hfail ⊢
    split_ifs at hfail ⊢ with h1 h2 h3 h4
    · exact ⟨ht.1, ht.2, hst⟩
    · simp [ht.1, ht.2, hst]
    · refine ⟨?_, ?_, ?_⟩
      · simp [add_iv_text, ht.1]
      · simp [add_iv_text, ht.2]
      · simp only []
        rw [add_iv_fail_state E G sockfd _ h4]
        simp [hst]

/-! ## C1: the first encrypt on a link -/

/-- C1. On a link with no handshake flag set and a plaintext of `n ≥ 1` bytes in
the text buffer, when `RAND_bytes` (writing the `iv_len` bytes `iv`),
`EVP_EncryptInit_ex`, `EVP_EncryptUpdate` (writing `n` bytes `out`) and
`add_data` (the `iv_len + n` bytes fit) succeed, `crypto_encrypt` on either
socket of the link returns `iv_len + n`, the cipher buffer holds `iv ++ out`
with `cipher_len = iv_len + n`, `iv` is the byte string handed to
`EVP_EncryptInit_ex` on that direction's context and is still in that
direction's IV buffer, and `SS_IV_SENT` is set. -/
theorem first_encrypt_emits_iv (E : Env Ctx R) (G : Globals) (sockfd : Int)
    (s : Sys Ctx R) (d : Dir) (iv out : Bytes) (rng1 : R) (c1 c2 : Ctx) (n : Nat)
    (hd : direction sockfd s.ln = some d)
    (hsent : s.ln.state &&& E.SS_IV_SENT = 0)
    (hrecv : s.ln.state &&& E.SS_IV_RECEIVED = 0)
    (hmask : E.SS_IV_SENT ≠ 0)
    (hn : 1 ≤ n) (htext : s.ln.text_len = n) (hcap : n ≤ s.ln.text.length)
    (hrand : E.RAND_bytes s.rng G.iv_len = (1, iv, rng1))
    (hivlen : iv.length = G.iv_len)
    (hinit : E.EVP_EncryptInit_ex (get_ctx d s.ln) G.evp_cipher G.key iv = (1, c1))
    (hupd : E.EVP_EncryptUpdate c1 (s.ln.text.take n) = (1, c2, out))
    (hout : out.length = n)
    (hfit : G.iv_len + n ≤ s.ln.cipher.length) :
    (crypto_encrypt E G sockfd s).1 = ((G.iv_len + n : Nat) : Int) ∧
    (crypto_encrypt E G sockfd s).2.ln.cipher.take
        (crypto_encrypt E G sockfd s).2.ln.cipher_len = iv ++ out ∧
    (crypto_encrypt E G sockfd s).2.ln.cipher_len = G.iv_len + n ∧
    (get_iv d (crypto_encrypt E G sockfd s).2.ln).take G.iv_len = iv ∧
    (crypto_encrypt E G sockfd s).2.calls =
      s.calls ++ [Call.RAND_bytes d G.iv_len, Call.EVP_EncryptInit_ex d G.key iv,
                  Call.EVP_EncryptUpdate d (s.ln.text.take n)] ∧
    get_ctx d (crypto_encrypt E G sockfd s).2.ln = c2 ∧
    (crypto_encrypt E G sockfd s).2.ln.state &&& E.SS_IV_SENT ≠ 0 := by
  subst htext
  obtain ⟨hv1, hv2, hv3⟩ :=
    first_encrypt_values E G d s 1 iv out rng1 c1 c2 hrand hivlen hinit hupd
  have hr : (E.RAND_bytes s.rng G.iv_len).1 ≠ -1 := by rw [hrand]; simp
  rw [crypto_encrypt_first_eq E G sockfd s d hd hsent hr (by rw [hv2]) (by rw [hv3])
    (by rw [hv3]; simp only; omega)]
  simp only [hv1, hv3, set_ctx_cipher, set_iv_cipher, set_ctx_cipher_len, set_iv_cipher_len,
    get_iv_set_ctx, get_iv_set_iv, get_ctx_set_ctx, set_ctx_state, set_iv_state]
  refine ⟨?_, ?_, by omega, ?_, ?_, ?_, or_and_self_ne_zero _ _ hmask⟩
  · simp [hout]; omega
  · rw [List.append_assoc]
    exact take_queued iv out _ G.iv_len hivlen
  all_goals trivial

/-- C1 at the scenario of the spec: 16-byte IV, plaintext "hello" on a fresh
link, socket 3: 21 bytes come out, the 16 IV bytes first. -/
theorem first_encrypt_emits_iv_witness :
    (crypto_encrypt xor_env aes128 3 (load_text hello (fresh_sys 17 32 64))).1 = 21 ∧
    (crypto_encrypt xor_env aes128 3 (load_text hello (fresh_sys 17 32 64))).2.ln.cipher.take 21
      = [1, 2, 3, 4, 5, 6, 7, 8, 9, 10, 11, 12, 13, 14, 15, 16] ++ [120, 116, 126, 127, 123] ∧
    (crypto_encrypt xor_env aes128 3 (load_text hello (fresh_sys 17 32 64))).2.ln.state
      &&& xor_env.SS_IV_SENT ≠ 0 := by
  have h := first_encrypt_emits_iv xor_env aes128 3 (load_text hello (fresh_sys 17 32 64))
    Dir.local_side [1, 2, 3, 4, 5, 6, 7, 8, 9, 10, 11, 12, 13, 14, 15, 16]
    [120, 116, 126, 127, 123] 1
    { ready := true, key := aes128.key,
      iv := [1, 2, 3, 4, 5, 6, 7, 8, 9, 10, 11, 12, 13, 14, 15, 16], pos := 0 }
    { ready := true, key := aes128.key,
      iv := [1, 2, 3, 4, 5, 6, 7, 8, 9, 10, 11, 12, 13, 14, 15, 16], pos := 5 }
    5 (by decide) (by decide) (by decide) (by decide) (by decide) (by decide) (by decide)
    (by decide) (by decide) (by decide) (by decide) (by decide) (by decide)
  have hc := h.2.1
  rw [h.2.2.1] at hc
  exact ⟨h.1, hc, h.2.2.2.2.2.2⟩

/-! ## C2: the first decrypt on a link, and the one after it -/

/-- C2. On a link with `SS_IV_RECEIVED` clear whose cipher buffer holds the
`iv_len + N` bytes `V ++ C` (`|V| = iv_len`, so `rm_data` succeeds), when
`EVP_DecryptInit_ex` and `EVP_DecryptUpdate` succeed, `crypto_decrypt` copies
`V` into the direction's IV buffer, initialises the direction's context with
the key and `V`, runs the transform over exactly `C`, returns `N` with
`text_len = N`, and sets `SS_IV_RECEIVED`. A second `crypto_decrypt` on the same
socket, whatever `M` bytes are buffered by then, makes a single library call,
`EVP_DecryptUpdate` over all `M` bytes on the context the first call left:
nothing is stripped, no context is initialised again and the IV buffer is
unchanged. -/
theorem first_decrypt_strips_iv_once (E : Env Ctx R) (G : Globals) (sockfd : Int)
    (s : Sys Ctx R) (d : Dir) (V C out : Bytes) (c1 c2 : Ctx)
    (hd : direction sockfd s.ln = some d)
    (hrecv : s.ln.state &&& E.SS_IV_RECEIVED = 0)
    (hmask : E.SS_IV_RECEIVED ≠ 0)
    (hV : V.length = G.iv_len)
    (hlen : s.ln.cipher_len = G.iv_len + C.length)
    (hbuf : s.ln.cipher.take s.ln.cipher_len = V ++ C)
    (hinit : E.EVP_DecryptInit_ex (get_ctx d s.ln) G.evp_cipher G.key V = (1, c1))
    (hupd : E.EVP_DecryptUpdate c1 C = (1, c2, out))
    (hout : out.length = C.length) :
    (crypto_decrypt E G sockfd s).1 = (C.length : Int) ∧
    (crypto_decrypt E G sockfd s).2.ln.text_len = C.length ∧
    (crypto_decrypt E G sockfd s).2.ln.text.take C.length = out ∧
    (crypto_decrypt E G sockfd s).2.ln.cipher_len = 0 ∧
    (get_iv d (crypto_decrypt E G sockfd s).2.ln).take G.iv_len = V ∧
    (crypto_decrypt E G sockfd s).2.calls =
      s.calls ++ [Call.EVP_DecryptInit_ex d G.key V, Call.EVP_DecryptUpdate d C] ∧
    get_ctx d (crypto_decrypt E G sockfd s).2.ln = c2 ∧
    (crypto_decrypt E G sockfd s).2.ln.state &&& E.SS_IV_RECEIVED ≠ 0 ∧
    ∀ (buf : Bytes) (M : Nat),
      (crypto_decrypt E G sockfd
          (with_cipher buf M (crypto_decrypt E G sockfd s).2)).2.calls =
        (crypto_decrypt E G sockfd s).2.calls ++ [Call.EVP_DecryptUpdate d (buf.take M)] ∧
      get_iv d (crypto_decrypt E G sockfd
          (with_cipher buf M (crypto_decrypt E G sockfd s).2)).2.ln =
        get_iv d (crypto_decrypt E G sockfd s).2.ln ∧
      get_ctx d (crypto_decrypt E G sockfd
          (with_cipher buf M (crypto_decrypt E G sockfd s).2)).2.ln =
        (E.EVP_DecryptUpdate c2 (buf.take M)).2.1 ∧
      ((E.EVP_DecryptUpdate c2 (buf.take M)).1 = 1 →
        (crypto_decrypt E G sockfd
          (with_cipher buf M (crypto_decrypt E G sockfd s).2)).1 =
          ((E.EVP_DecryptUpdate c2 (buf.take M)).2.2.length : Int)) := by
  obtain ⟨hv1, hv0, hv2, hv3⟩ :=
    first_decrypt_values E G d s V C out c1 c2 hV hlen hbuf hinit hupd
  have hflag := or_and_self_ne_zero s.ln.state E.SS_IV_RECEIVED hmask
  have heq := crypto_decrypt_first_eq E G sockfd s d hd hrecv (by omega) (by rw [hv2])
    (by rw [hv3])
  rw [hv0, hv1, hv3] at heq
  simp only at heq
  have hd2 : ∀ (buf : Bytes) (M : Nat), direction sockfd
      (with_cipher buf M (crypto_decrypt E G sockfd s).2).ln = some d := by
    intro buf M
    rw [← hd]
    exact direction_congr sockfd _ _ (crypto_decrypt_local_sockfd E G sockfd s)
      (crypto_decrypt_server_sockfd E G sockfd s)
  refine ⟨?_, ?_, ?_, ?_, ?_, ?_, ?_, ?_, ?_⟩
  · rw [heq]; simp [hout]
  · rw [heq]; simp [hout]
  · rw [heq]; simp [memcpy, List.take_left' hout]
  · rw [heq]; simp
  · rw [heq]; simp [hv1]
  · rw [heq]
  · rw [heq]; simp
  · rw [heq]; simpa using hflag
  · intro buf M
    have hst : (crypto_decrypt E G sockfd s).2.ln.state &&& E.SS_IV_RECEIVED ≠ 0 := by
      rw [heq]; simpa using hflag
    have hctx : get_ctx d (crypto_decrypt E G sockfd s).2.ln = c2 := by
      rw [heq]; simp
    obtain ⟨f1, -, f3, f4, -, -, -, f8⟩ := crypto_decrypt_received_facts E G sockfd
      (with_cipher buf M (crypto_decrypt E G sockfd s).2) d (hd2 buf M) hst
    simp only [with_cipher_calls, with_cipher_get_iv, with_cipher_get_ctx, with_cipher_cipher,
      with_cipher_cipher_len, hctx] at f1 f3 f4 f8
    exact ⟨f1, f3 d, f4, fun h => (f8 h).1⟩

/-- C2 on a link with a 2-byte IV: five bytes `[1, 2, 50, 60, 70]` are buffered,
the first decrypt on socket 3 takes `[1, 2]` as IV and returns 3; the next
decrypt, with `[9, 9]` buffered, only calls `EVP_DecryptUpdate` on `[9, 9]`. -/
theorem first_decrypt_strips_iv_once_witness :
    (crypto_decrypt xor_env tiny2 3 (load_cipher [1, 2, 50, 60, 70] (fresh_sys 3 8 8))).1 = 3 ∧
    (get_iv Dir.local_side
      (crypto_decrypt xor_env tiny2 3
        (load_cipher [1, 2, 50, 60, 70] (fresh_sys 3 8 8))).2.ln).take 2 = [1, 2] ∧
    (crypto_decrypt xor_env tiny2 3
        (with_cipher [9, 9, 0, 0, 0, 0, 0, 0] 2
          (crypto_decrypt xor_env tiny2 3
            (load_cipher [1, 2, 50, 60, 70] (fresh_sys 3 8 8))).2)).2.calls =
      (crypto_decrypt xor_env tiny2 3
        (load_cipher [1, 2, 50, 60, 70] (fresh_sys 3 8 8))).2.calls ++
        [Call.EVP_DecryptUpdate Dir.local_side [9, 9]] := by
  have h := first_decrypt_strips_iv_once xor_env tiny2 3
    (load_cipher [1, 2, 50, 60, 70] (fresh_sys 3 8 8)) Dir.local_side [1, 2] [50, 60, 70]
    (xor_stream tiny2.key [1, 2] 0 [50, 60, 70])
    { ready := true, key := tiny2.key, iv := [1, 2], pos := 0 }
    { ready := true, key := tiny2.key, iv := [1, 2], pos := 3 }
    (by decide) (by decide) (by decide) (by decide) (by decide) (by decide) (by decide)
    (by decide) (by decide)
  exact ⟨h.1, h.2.2.2.2.1, (h.2.2.2.2.2.2.2.2 [9, 9, 0, 0, 0, 0, 0, 0] 2).1⟩

/-! ## C3: round trip between two links -/

/-- C3. Let the stream cipher be such that, under the process key and any IV
`V`, decryption inverts encryption. If `crypto_encrypt` succeeds on a fresh
direction of link A whose text buffer holds `P`, and the bytes it left in A's
cipher buffer (IV included) are the buffered cipher text of a fresh direction of
another link B, then `crypto_decrypt` on B returns `|P|`, leaves `P` in B's text
buffer, and B's IV buffer holds the IV that A generated. -/
theorem round_trip (E : Env Ctx R) (G : Globals) (fdA fdB : Int) (sA sB : Sys Ctx R)
    (dA dB : Dir)
    (hdA : direction fdA sA.ln = some dA) (hdB : direction fdB sB.ln = some dB)
    (hfreshA : sA.ln.state &&& E.SS_IV_SENT = 0)
    (hfreshB : sB.ln.state &&& E.SS_IV_RECEIVED = 0)
    (hivbuf : G.iv_len ≤ (get_iv dA sA.ln).length)
    (hinv : ∀ (ca cb : Ctx) (V P : Bytes),
      (E.EVP_EncryptInit_ex ca G.evp_cipher G.key V).1 = 1 →
      (E.EVP_EncryptUpdate (E.EVP_EncryptInit_ex ca G.evp_cipher G.key V).2 P).1 = 1 →
      (E.EVP_DecryptInit_ex cb G.evp_cipher G.key V).1 = 1 ∧
      (E.EVP_DecryptUpdate (E.EVP_DecryptInit_ex cb G.evp_cipher G.key V).2
        (E.EVP_EncryptUpdate (E.EVP_EncryptInit_ex ca G.evp_cipher G.key V).2 P).2.2).1 = 1 ∧
      (E.EVP_DecryptUpdate (E.EVP_DecryptInit_ex cb G.evp_cipher G.key V).2
        (E.EVP_EncryptUpdate (E.EVP_EncryptInit_ex ca G.evp_cipher G.key V).2 P).2.2).2.2 = P)
    (hok : 0 ≤ (crypto_encrypt E G fdA sA).1)
    (hlenB : sB.ln.cipher_len = (crypto_encrypt E G fdA sA).2.ln.cipher_len)
    (hbufB : sB.ln.cipher.take sB.ln.cipher_len =
      (crypto_encrypt E G fdA sA).2.ln.cipher.take (crypto_encrypt E G fdA sA).2.ln.cipher_len) :
    (crypto_decrypt E G fdB sB).1 = ((sA.ln.text.take sA.ln.text_len).length : Int) ∧
    (crypto_decrypt E G fdB sB).2.ln.text.take (crypto_decrypt E G fdB sB).2.ln.text_len =
      sA.ln.text.take sA.ln.text_len ∧
    (get_iv dB (crypto_decrypt E G fdB sB).2.ln).take G.iv_len =
      (get_iv dA (crypto_encrypt E G fdA sA).2.ln).take G.iv_len := by
  obtain ⟨hr, hi, hu, hfit⟩ :=
    crypto_encrypt_first_inv E G fdA sA dA hdA hfreshA (by omega)
  have heqA := crypto_encrypt_first_eq E G fdA sA dA hdA hfreshA hr hi hu hfit
  have hVlen := length_take_iv_generated E G dA sA hivbuf
  have hcl : (crypto_encrypt E G fdA sA).2.ln.cipher_len =
      G.iv_len + (first_EncryptUpdate E G dA sA).2.2.length := by
    rw [heqA]; simp; omega
  have hct : (crypto_encrypt E G fdA sA).2.ln.cipher.take
      (crypto_encrypt E G fdA sA).2.ln.cipher_len =
      (iv_generated E G dA sA).take G.iv_len ++ (first_EncryptUpdate E G dA sA).2.2 := by
    rw [hcl, heqA]
    simp only [set_ctx_cipher, set_iv_cipher]
    rw [List.append_assoc, Nat.add_comm]
    exact take_queued _ _ _ G.iv_len hVlen
  have hivA : get_iv dA (crypto_encrypt E G fdA sA).2.ln = iv_generated E G dA sA := by
    rw [heqA]; simp
  rw [hct] at hbufB
  rw [hcl] at hlenB
  obtain ⟨hdi, hdu, hdp⟩ := hinv (get_ctx dA sA.ln) (get_ctx dB sB.ln)
    ((iv_generated E G dA sA).take G.iv_len) (sA.ln.text.take sA.ln.text_len) hi hu
  obtain ⟨hv1, hv0, hv2, hv3⟩ := first_decrypt_values E G dB sB
    ((iv_generated E G dA sA).take G.iv_len) (first_EncryptUpdate E G dA sA).2.2
    (sA.ln.text.take sA.ln.text_len)
    (E.EVP_DecryptInit_ex (get_ctx dB sB.ln) G.evp_cipher G.key
      ((iv_generated E G dA sA).take G.iv_len)).2
    (E.EVP_DecryptUpdate (E.EVP_DecryptInit_ex (get_ctx dB sB.ln) G.evp_cipher G.key
      ((iv_generated E G dA sA).take G.iv_len)).2 (first_EncryptUpdate E G dA sA).2.2).2.1
    hVlen hlenB hbufB
    (Prod.ext hdi rfl)
    (Prod.ext hdu (Prod.ext rfl hdp))
  have heqB := crypto_decrypt_first_eq E G fdB sB dB hdB hfreshB (by omega) (by rw [hv2])
    (by rw [hv3])
  rw [hv3] at heqB
  rw [heqB, hivA]
  simp only [set_ctx_text, set_iv_text, set_ctx_text_len, set_iv_text_len, get_iv_set_ctx,
    get_iv_set_iv, hv1, memcpy_all_take]
  exact ⟨rfl, trivial, trivial⟩

/-- C3 on two fresh links: "hello" is encrypted on socket 3 of the first, the
21 bytes are buffered on the second, and its `crypto_decrypt` on socket 4
returns 5 with "hello" in the text buffer. -/
theorem round_trip_witness :
    (crypto_decrypt xor_env aes128 4
      (load_cipher ((crypto_encrypt xor_env aes128 3
          (load_text hello (fresh_sys 17 32 64))).2.ln.cipher.take 21)
        (fresh_sys 17 32 64))).1 = 5 ∧
    (crypto_decrypt xor_env aes128 4
      (load_cipher ((crypto_encrypt xor_env aes128 3
          (load_text hello (fresh_sys 17 32 64))).2.ln.cipher.take 21)
        (fresh_sys 17 32 64))).2.ln.text.take
      (crypto_decrypt xor_env aes128 4
        (load_cipher ((crypto_encrypt xor_env aes128 3
            (load_text hello (fresh_sys 17 32 64))).2.ln.cipher.take 21)
          (fresh_sys 17 32 64))).2.ln.text_len = hello := by
  have h := round_trip xor_env aes128 3 4 (load_text hello (fresh_sys 17 32 64))
    (load_cipher ((crypto_encrypt xor_env aes128 3
          (load_text hello (fresh_sys 17 32 64))).2.ln.cipher.take 21)
        (fresh_sys 17 32 64))
    Dir.local_side Dir.server_side (by decide) (by decide) (by decide) (by decide) (by decide)
    (xor_env_inverts aes128) (by decide) (by decide) (by decide)
  exact ⟨h.1, h.2.1⟩

/-! ## C4: the handshake flags belong to the link, not to a direction -/

/-- C4, as stated, fails. On a fresh link with sockets 3 and 4 and a 2-byte IV,
the first `crypto_encrypt` on socket 3 succeeds (7 bytes: IV and 5 cipher
bytes). The first `crypto_encrypt` on socket 4 then makes one library call,
`EVP_EncryptUpdate` on the server context: no `RAND_bytes`, no
`EVP_EncryptInit_ex`, the server IV buffer and the generator are untouched, and
the call does not return `iv_len + n = 7`. -/
theorem other_direction_gets_no_iv :
    (crypto_encrypt xor_env tiny2 3 (load_text hello (fresh_sys 3 8 16))).1 = 7 ∧
    (crypto_encrypt xor_env tiny2 4
      (load_text hello (crypto_encrypt xor_env tiny2 3
        (load_text hello (fresh_sys 3 8 16))).2)).2.calls =
      (crypto_encrypt xor_env tiny2 3 (load_text hello (fresh_sys 3 8 16))).2.calls ++
        [Call.EVP_EncryptUpdate Dir.server_side hello] ∧
    (crypto_encrypt xor_env tiny2 4
      (load_text hello (crypto_encrypt xor_env tiny2 3
        (load_text hello (fresh_sys 3 8 16))).2)).2.ln.server_iv = [0, 0, 0] ∧
    (crypto_encrypt xor_env tiny2 4
      (load_text hello (crypto_encrypt xor_env tiny2 3
        (load_text hello (fresh_sys 3 8 16))).2)).2.ln.server_ctx = xor_blank ∧
    (crypto_encrypt xor_env tiny2 4
      (load_text hello (crypto_encrypt xor_env tiny2 3
        (load_text hello (fresh_sys 3 8 16))).2)).2.rng =
      (crypto_encrypt xor_env tiny2 3 (load_text hello (fresh_sys 3 8 16))).2.rng ∧
    (crypto_encrypt xor_env tiny2 4
      (load_text hello (crypto_encrypt xor_env tiny2 3
        (load_text hello (fresh_sys 3 8 16))).2)).1 ≠ 7 := by
  decide

/-- C4, amended. The two directions of a link have their own IV buffer and
cipher context, and a first `crypto_encrypt` (`crypto_decrypt`) on one socket
leaves the other direction's IV buffer and context untouched; but `SS_IV_SENT`
and `SS_IV_RECEIVED` are bits of the one `state` word of the link. So after a
successful first `crypto_encrypt` on one direction, a `crypto_encrypt` on the
other direction, whatever the text buffer holds by then, draws no IV,
initialises nothing and queues no IV: its only library call is
`EVP_EncryptUpdate` on the other direction's context as it was, and when that
succeeds the call returns the transform's length and the cipher buffer holds the
transform's output alone. The same holds for `crypto_decrypt` and
`SS_IV_RECEIVED`. -/
theorem handshake_flags_per_link (E : Env Ctx R) (G : Globals) (fd1 fd2 : Int)
    (s : Sys Ctx R) (d1 d2 : Dir)
    (hd1 : direction fd1 s.ln = some d1) (hd2 : direction fd2 s.ln = some d2)
    (hne : d2 ≠ d1)
    (hmS : E.SS_IV_SENT ≠ 0) (hmR : E.SS_IV_RECEIVED ≠ 0) :
    (s.ln.state &&& E.SS_IV_SENT = 0 → 0 ≤ (crypto_encrypt E G fd1 s).1 →
      get_iv d2 (crypto_encrypt E G fd1 s).2.ln = get_iv d2 s.ln ∧
      get_ctx d2 (crypto_encrypt E G fd1 s).2.ln = get_ctx d2 s.ln ∧
      ∀ (buf : Bytes) (len : Nat),
        (crypto_encrypt E G fd2 (with_text buf len (crypto_encrypt E G fd1 s).2)).2.calls =
          (crypto_encrypt E G fd1 s).2.calls ++ [Call.EVP_EncryptUpdate d2 (buf.take len)] ∧
        (crypto_encrypt E G fd2 (with_text buf len (crypto_encrypt E G fd1 s).2)).2.rng =
          (crypto_encrypt E G fd1 s).2.rng ∧
        get_iv d2 (crypto_encrypt E G fd2
            (with_text buf len (crypto_encrypt E G fd1 s).2)).2.ln = get_iv d2 s.ln ∧
        get_ctx d2 (crypto_encrypt E G fd2
            (with_text buf len (crypto_encrypt E G fd1 s).2)).2.ln =
          (E.EVP_EncryptUpdate (get_ctx d2 s.ln) (buf.take len)).2.1 ∧
        ((E.EVP_EncryptUpdate (get_ctx d2 s.ln) (buf.take len)).1 = 1 →
          (crypto_encrypt E G fd2 (with_text buf len (crypto_encrypt E G fd1 s).2)).1 =
            ((E.EVP_EncryptUpdate (get_ctx d2 s.ln) (buf.take len)).2.2.length : Int) ∧
          (crypto_encrypt E G fd2
              (with_text buf len (crypto_encrypt E G fd1 s).2)).2.ln.cipher.take
            (crypto_encrypt E G fd2
              (with_text buf len (crypto_encrypt E G fd1 s).2)).2.ln.cipher_len =
            (E.EVP_EncryptUpdate (get_ctx d2 s.ln) (buf.take len)).2.2)) ∧
    (s.ln.state &&& E.SS_IV_RECEIVED = 0 → 0 ≤ (crypto_decrypt E G fd1 s).1 →
      get_iv d2 (crypto_decrypt E G fd1 s).2.ln = get_iv d2 s.ln ∧
      get_ctx d2 (crypto_decrypt E G fd1 s).2.ln = get_ctx d2 s.ln ∧
      ∀ (buf : Bytes) (len : Nat),
        (crypto_decrypt E G fd2 (with_cipher buf len (crypto_decrypt E G fd1 s).2)).2.calls =
          (crypto_decrypt E G fd1 s).2.calls ++ [Call.EVP_DecryptUpdate d2 (buf.take len)] ∧
        get_iv d2 (crypto_decrypt E G fd2
            (with_cipher buf len (crypto_decrypt E G fd1 s).2)).2.ln = get_iv d2 s.ln ∧
        get_ctx d2 (crypto_decrypt E G fd2
            (with_cipher buf len (crypto_decrypt E G fd1 s).2)).2.ln =
          (E.EVP_DecryptUpdate (get_ctx d2 s.ln) (buf.take len)).2.1 ∧
        ((E.EVP_DecryptUpdate (get_ctx d2 s.ln) (buf.take len)).1 = 1 →
          (crypto_decrypt E G fd2 (with_cipher buf len (crypto_decrypt E G fd1 s).2)).1 =
            ((E.EVP_DecryptUpdate (get_ctx d2 s.ln) (buf.take len)).2.2.length : Int) ∧
          (crypto_decrypt E G fd2
              (with_cipher buf len (crypto_decrypt E G fd1 s).2)).2.ln.text.take
            (crypto_decrypt E G fd2
              (with_cipher buf len (crypto_decrypt E G fd1 s).2)).2.ln.text_len =
            (E.EVP_DecryptUpdate (get_ctx d2 s.ln) (buf.take len)).2.2)) := by
  constructor
  · intro hs hok
    obtain ⟨-, hst, -, -, hiv, hctx, -, -, -⟩ :=
      crypto_encrypt_first_facts E G fd1 s d1 hd1 hs (by omega)
    refine ⟨hiv d2 hne, hctx d2 hne, ?_⟩
    intro buf len
    have hdir : direction fd2 (with_text buf len (crypto_encrypt E G fd1 s).2).ln = some d2 := by
      rw [with_text_direction, crypto_encrypt_direction, hd2]
    have hflag : (with_text buf len (crypto_encrypt E G fd1 s).2).ln.state
        &&& E.SS_IV_SENT ≠ 0 := by
      rw [with_text_state, hst]; exact or_and_self_ne_zero _ _ hmS
    obtain ⟨f1, f2, f3, f4, -, -, -, f8⟩ := crypto_encrypt_sent_facts E G fd2
      (with_text buf len (crypto_encrypt E G fd1 s).2) d2 hdir hflag
    simp only [with_text_calls, with_text_rng, with_text_get_iv, with_text_get_ctx,
      with_text_text, with_text_text_len, hiv d2 hne, hctx d2 hne] at f1 f2 f3 f4 f8
    exact ⟨f1, f2, (f3 d2).trans (hiv d2 hne), f4, fun h => ⟨(f8 h).1, (f8 h).2.1⟩⟩
  · intro hs hok
    obtain ⟨-, hst, -, -, hiv, hctx, -⟩ :=
      crypto_decrypt_first_facts E G fd1 s d1 hd1 hs (by omega)
    refine ⟨hiv d2 hne, hctx d2 hne, ?_⟩
    intro buf len
    have hdir : direction fd2 (with_cipher buf len (crypto_decrypt E G fd1 s).2).ln
        = some d2 := by
      rw [with_cipher_direction, crypto_decrypt_direction, hd2]
    have hflag : (with_cipher buf len (crypto_decrypt E G fd1 s).2).ln.state
        &&& E.SS_IV_RECEIVED ≠ 0 := by
      rw [with_cipher_state, hst]; exact or_and_self_ne_zero _ _ hmR
    obtain ⟨f1, -, f3, f4, -, -, -, f8⟩ := crypto_decrypt_received_facts E G fd2
      (with_cipher buf len (crypto_decrypt E G fd1 s).2) d2 hdir hflag
    simp only [with_cipher_calls, with_cipher_get_iv, with_cipher_get_ctx,
      with_cipher_cipher, with_cipher_cipher_len, hiv d2 hne, hctx d2 hne] at f1 f3 f4 f8
    exact ⟨f1, (f3 d2).trans (hiv d2 hne), f4, fun h => ⟨(f8 h).1, (f8 h).2.1⟩⟩

/-- C4, amended, on a fresh link with a 2-byte IV: after the first encrypt of
"hello" on socket 3, an encrypt on socket 4 calls `EVP_EncryptUpdate` only and
leaves the server IV buffer as it was. -/
theorem handshake_flags_per_link_witness :
    (crypto_encrypt xor_env tiny2 4
      (with_text [9, 8, 7, 0, 0, 0, 0, 0] 3 (crypto_encrypt xor_env tiny2 3
        (load_text hello (fresh_sys 3 8 16))).2)).2.calls =
      (crypto_encrypt xor_env tiny2 3 (load_text hello (fresh_sys 3 8 16))).2.calls ++
        [Call.EVP_EncryptUpdate Dir.server_side [9, 8, 7]] ∧
    get_iv Dir.server_side (crypto_encrypt xor_env tiny2 4
      (with_text [9, 8, 7, 0, 0, 0, 0, 0] 3 (crypto_encrypt xor_env tiny2 3
        (load_text hello (fresh_sys 3 8 16))).2)).2.ln = [0, 0, 0] := by
  have h := (handshake_flags_per_link xor_env tiny2 3 4 (load_text hello (fresh_sys 3 8 16))
    Dir.local_side Dir.server_side (by decide) (by decide) (by decide) (by decide)
    (by decide)).1 (by decide) (by decide)
  exact ⟨(h.2.2 [9, 8, 7, 0, 0, 0, 0, 0] 3).1, (h.2.2 [9, 8, 7, 0, 0, 0, 0, 0] 3).2.2.1⟩

/-! ## C5: fewer than `iv_len` bytes buffered on a first decrypt -/

/-- C5. On a link with `SS_IV_RECEIVED` clear whose cipher buffer holds fewer
than `iv_len` bytes, `crypto_decrypt` (on any socket) returns -1,
`SS_IV_RECEIVED` is still clear, both cipher contexts are what they were, and no
library call was made: `EVP_DecryptInit_ex` and `EVP_DecryptUpdate` are not
reached. -/
theorem short_decrypt_fails_clean (E : Env Ctx R) (G : Globals) (sockfd : Int) (s : Sys Ctx R)
    (hrecv : s.ln.state &&& E.SS_IV_RECEIVED = 0)
    (hshort : s.ln.cipher_len < G.iv_len) :
    (crypto_decrypt E G sockfd s).1 = -1 ∧
    (crypto_decrypt E G sockfd s).2.ln.state &&& E.SS_IV_RECEIVED = 0 ∧
    (crypto_decrypt E G sockfd s).2.ln.local_ctx = s.ln.local_ctx ∧
    (crypto_decrypt E G sockfd s).2.ln.server_ctx = s.ln.server_ctx ∧
    (crypto_decrypt E G sockfd s).2.calls = s.calls := by
  have hrm : ¬ G.iv_len ≤ s.ln.cipher_len := by omega
  cases hd : direction sockfd s.ln with
  | none =>
    simp [crypto_decrypt, check_cipher_unknown E G sockfd s "decrypt" hd, hrecv]
  | some d =>
    cases d
    · have h := (direction_eq_local sockfd s.ln).1 hd
      subst h
      simp [crypto_decrypt, check_cipher, check_cipher_decrypt, receive_iv, rm_data, direction,
        set_iv, set_ctx, get_iv, get_ctx, hrecv, hrm]
    · obtain ⟨h1, h2⟩ := (direction_eq_server sockfd s.ln).1 hd
      subst h2
      simp [crypto_decrypt, check_cipher, check_cipher_decrypt, receive_iv, rm_data, direction,
        set_iv, set_ctx, get_iv, get_ctx, hrecv, hrm, h1]

/-- C5 on a fresh link with a 2-byte IV and a single byte buffered. -/
theorem short_decrypt_fails_clean_witness :
    (crypto_decrypt xor_env tiny2 3 (load_cipher [42] (fresh_sys 3 8 8))).1 = -1 ∧
    (crypto_decrypt xor_env tiny2 3 (load_cipher [42] (fresh_sys 3 8 8))).2.ln.state
      &&& xor_env.SS_IV_RECEIVED = 0 ∧
    (crypto_decrypt xor_env tiny2 3 (load_cipher [42] (fresh_sys 3 8 8))).2.calls = [] := by
  have h := short_decrypt_fails_clean xor_env tiny2 3 (load_cipher [42] (fresh_sys 3 8 8))
    (by decide) (by decide)
  exact ⟨h.1, h.2.1, h.2.2.2.2⟩

/-! ## C6: calling the IV-ensure step twice -/

/-- C6, as stated, fails for the "encrypt" role. On a fresh link with a 2-byte
IV, two `check_cipher` calls in a row for socket 3 and "encrypt" both return 0,
and the second one draws a second IV and initialises the context a second time:
the generator has advanced twice, four library calls were made, and the IV
buffer after the second call differs from the one after the first. -/
theorem check_cipher_encrypt_twice_draws_twice :
    (check_cipher xor_env tiny2 3 (fresh_sys 3 8 8) "encrypt").1 = 0 ∧
    (check_cipher xor_env tiny2 3
      (check_cipher xor_env tiny2 3 (fresh_sys 3 8 8) "encrypt").2 "encrypt").1 = 0 ∧
    (check_cipher xor_env tiny2 3 (fresh_sys 3 8 8) "encrypt").2.rng = 1 ∧
    (check_cipher xor_env tiny2 3
      (check_cipher xor_env tiny2 3 (fresh_sys 3 8 8) "encrypt").2 "encrypt").2.rng = 2 ∧
    (check_cipher xor_env tiny2 3 (fresh_sys 3 8 8) "encrypt").2.ln.local_iv = [1, 2, 0] ∧
    (check_cipher xor_env tiny2 3
      (check_cipher xor_env tiny2 3 (fresh_sys 3 8 8) "encrypt").2 "encrypt").2.ln.local_iv
      = [17, 18, 0] ∧
    (check_cipher xor_env tiny2 3
      (check_cipher xor_env tiny2 3 (fresh_sys 3 8 8) "encrypt").2 "encrypt").2.calls =
      [Call.RAND_bytes Dir.local_side 2,
       Call.EVP_EncryptInit_ex Dir.local_side [7, 9, 0] [1, 2],
       Call.RAND_bytes Dir.local_side 2,
       Call.EVP_EncryptInit_ex Dir.local_side [7, 9, 0] [17, 18]] := by
  decide

/-- C6, amended. The IV-ensure step is idempotent once the flag of its role is
set. For the "decrypt" role `check_cipher` sets `SS_IV_RECEIVED` itself (in
`receive_iv`), so after a call that returned 0 a second call with the same
socket returns 0 and changes nothing. For the "encrypt" role `check_cipher`
never sets `SS_IV_SENT` (`add_iv` does, at the end of `crypto_encrypt`): two
calls in a row change nothing when `SS_IV_SENT` is already set, and after a
`crypto_encrypt` that returned a non-negative value a `check_cipher` for
"encrypt" returns 0 and changes nothing. -/
theorem check_cipher_idempotent_once_flagged (E : Env Ctx R) (G : Globals) (sockfd : Int)
    (s : Sys Ctx R) (hmS : E.SS_IV_SENT ≠ 0) (hmR : E.SS_IV_RECEIVED ≠ 0) :
    ((check_cipher E G sockfd s "decrypt").1 = 0 →
      check_cipher E G sockfd (check_cipher E G sockfd s "decrypt").2 "decrypt" =
        (0, (check_cipher E G sockfd s "decrypt").2)) ∧
    (s.ln.state &&& E.SS_IV_SENT ≠ 0 → (check_cipher E G sockfd s "encrypt").1 = 0 →
      check_cipher E G sockfd s "encrypt" = (0, s) ∧
      check_cipher E G sockfd (check_cipher E G sockfd s "encrypt").2 "encrypt" = (0, s)) ∧
    (0 ≤ (crypto_encrypt E G sockfd s).1 →
      check_cipher E G sockfd (crypto_encrypt E G sockfd s).2 "encrypt" =
        (0, (crypto_encrypt E G sockfd s).2)) := by
  refine ⟨?_, ?_, ?_⟩
  · intro hok
    cases hd : direction sockfd s.ln with
    | none =>
      rw [check_cipher_unknown E G sockfd s "decrypt" hd] at hok
      simp at hok
    | some d =>
      exact check_cipher_noop E G sockfd _ "decrypt" d
        (by rw [check_cipher_direction, hd]) (fun h => absurd h (by decide))
        (fun _ => check_cipher_decrypt_flag E G sockfd s hmR hok)
  · intro hs hok
    cases hd : direction sockfd s.ln with
    | none =>
      rw [check_cipher_unknown E G sockfd s "encrypt" hd] at hok
      simp at hok
    | some d =>
      have h1 := check_cipher_noop E G sockfd s "encrypt" d hd (fun _ => hs)
        (fun h => absurd h (by decide))
      rw [h1]
      exact ⟨rfl, h1⟩
  · intro hok
    have hne : (crypto_encrypt E G sockfd s).1 ≠ -1 := by omega
    cases hd : direction sockfd s.ln with
    | none =>
      rw [crypto_encrypt_unknown E G sockfd s hd] at hne
      exact absurd rfl hne
    | some d =>
      exact check_cipher_noop E G sockfd _ "encrypt" d
        (by rw [crypto_encrypt_direction, hd])
        (fun _ => crypto_encrypt_ok_flag E G sockfd s hmS hne)
        (fun h => absurd h (by decide))

/-- C6, amended, on a link with a 2-byte IV and `[1, 2, 50]` buffered: the second
"decrypt" `check_cipher` on socket 3 changes nothing. -/
theorem check_cipher_idempotent_once_flagged_witness :
    check_cipher xor_env tiny2 3
      (check_cipher xor_env tiny2 3 (load_cipher [1, 2, 50] (fresh_sys 3 8 8)) "decrypt").2
      "decrypt" =
    (0, (check_cipher xor_env tiny2 3 (load_cipher [1, 2, 50] (fresh_sys 3 8 8)) "decrypt").2) :=
  (check_cipher_idempotent_once_flagged xor_env tiny2 3 (load_cipher [1, 2, 50] (fresh_sys 3 8 8))
    (by decide) (by decide)).1 (by decide)

/-! ## C7: the wire layout of one direction -/

/-- C7. (1) On a link with `SS_IV_SENT` set, a successful `crypto_encrypt`
returns the length of what `EVP_EncryptUpdate` produced from the text buffer,
the cipher buffer holds that output with no IV in front, no IV buffer is
modified, the generator is not used, and the only library call is that
`EVP_EncryptUpdate` on the direction's context (no initialisation). (2) Hence,
when the chunks `p :: ps` are encrypted one after the other on the same socket
of a link that starts with `SS_IV_SENT` clear, what goes on the wire is the
IV, once, followed by the outputs of the successive `EVP_EncryptUpdate` calls on
the context initialised with that IV; the library calls are one `RAND_bytes`,
one `EVP_EncryptInit_ex` and one `EVP_EncryptUpdate` per chunk. -/
theorem wire_layout (E : Env Ctx R) (G : Globals) (sockfd : Int) (d : Dir)
    (hmS : E.SS_IV_SENT ≠ 0) :
    (∀ s : Sys Ctx R, direction sockfd s.ln = some d → s.ln.state &&& E.SS_IV_SENT ≠ 0 →
      0 ≤ (crypto_encrypt E G sockfd s).1 →
      (crypto_encrypt E G sockfd s).1 =
        ((E.EVP_EncryptUpdate (get_ctx d s.ln)
          (s.ln.text.take s.ln.text_len)).2.2.length : Int) ∧
      (crypto_encrypt E G sockfd s).2.ln.cipher.take
          (crypto_encrypt E G sockfd s).2.ln.cipher_len =
        (E.EVP_EncryptUpdate (get_ctx d s.ln) (s.ln.text.take s.ln.text_len)).2.2 ∧
      (∀ e : Dir, get_iv e (crypto_encrypt E G sockfd s).2.ln = get_iv e s.ln) ∧
      (crypto_encrypt E G sockfd s).2.rng = s.rng ∧
      (crypto_encrypt E G sockfd s).2.calls =
        s.calls ++ [Call.EVP_EncryptUpdate d (s.ln.text.take s.ln.text_len)] ∧
      get_ctx d (crypto_encrypt E G sockfd s).2.ln =
        (E.EVP_EncryptUpdate (get_ctx d s.ln) (s.ln.text.take s.ln.text_len)).2.1) ∧
    (∀ (s s' : Sys Ctx R) (p : Bytes) (ps : List Bytes) (w : Bytes),
      direction sockfd s.ln = some d → s.ln.state &&& E.SS_IV_SENT = 0 →
      G.iv_len ≤ (get_iv d s.ln).length →
      encrypt_chunks E G sockfd s (p :: ps) = some (w, s') →
      ∃ w0 : Bytes,
        update_chunks E (first_EncryptInit E G d s).2 (p :: ps) = some (w0, get_ctx d s'.ln) ∧
        w = (iv_generated E G d s).take G.iv_len ++ w0 ∧
        ((iv_generated E G d s).take G.iv_len).length = G.iv_len ∧
        (get_iv d s'.ln).take G.iv_len = (iv_generated E G d s).take G.iv_len ∧
        s'.calls = s.calls ++
          [Call.RAND_bytes d G.iv_len,
           Call.EVP_EncryptInit_ex d G.key ((iv_generated E G d s).take G.iv_len)] ++
          (p :: ps).map (fun q => Call.EVP_EncryptUpdate d q)) := by
  constructor
  · intro s hd hs hok
    obtain ⟨f1, f2, f3, f4, -, -, f7, f8⟩ := crypto_encrypt_sent_facts E G sockfd s d hd hs
    have hu : (E.EVP_EncryptUpdate (get_ctx d s.ln) (s.ln.text.take s.ln.text_len)).1 = 1 := by
      by_contra hne
      rw [f7 hne] at hok
      exact absurd hok (by decide)
    exact ⟨(f8 hu).1, (f8 hu).2.1, f3, f2, f1, f4⟩
  · intro s s' p ps w hd hs hivbuf h
    simp only [encrypt_chunks] at h
    by_cases hneg : (crypto_encrypt E G sockfd (load_text p s)).1 < 0
    · rw [if_pos hneg] at h; simp at h
    rw [if_neg hneg] at h
    have hok : (crypto_encrypt E G sockfd (load_text p s)).1 ≠ -1 := by omega
    have hd1 : direction sockfd (load_text p s).ln = some d := by
      rw [load_text_direction, hd]
    have hs1 : (load_text p s).ln.state &&& E.SS_IV_SENT = 0 := by
      rw [load_text_state]; exact hs
    obtain ⟨-, -, hu, -⟩ := crypto_encrypt_first_inv E G sockfd (load_text p s) d hd1 hs1 hok
    obtain ⟨-, g2, g3, g4, -, -, g7, g8, g9⟩ :=
      crypto_encrypt_first_facts E G sockfd (load_text p s) d hd1 hs1 hok
    simp only [iv_generated_load_text, first_EncryptUpdate_load_text, load_text_state,
      load_text_calls, load_text_take, load_text_cipher] at hu g2 g3 g4 g7 g8 g9
    have hVlen := length_take_iv_generated E G d s hivbuf
    have hwire : (crypto_encrypt E G sockfd (load_text p s)).2.ln.cipher.take
        (crypto_encrypt E G sockfd (load_text p s)).2.ln.cipher_len =
        (iv_generated E G d s).take G.iv_len ++
          (E.EVP_EncryptUpdate (first_EncryptInit E G d s).2 p).2.2 := by
      rw [g8, g9, List.append_assoc]
      exact take_queued _ _ _ G.iv_len hVlen
    cases hrest : encrypt_chunks E G sockfd (crypto_encrypt E G sockfd (load_text p s)).2 ps with
    | none => rw [hrest] at h; simp at h
    | some r =>
      obtain ⟨w2, s2⟩ := r
      rw [hrest] at h
      simp only [Option.some.injEq, Prod.mk.injEq] at h
      obtain ⟨hw, hs2⟩ := h
      subst hw hs2
      obtain ⟨i1, i2, i3, -⟩ := encrypt_chunks_sent E G sockfd d ps _ _ _
        (by rw [crypto_encrypt_direction, hd1])
        (by rw [g2]; exact or_and_self_ne_zero _ _ hmS) hrest
      rw [g4] at i1
      refine ⟨(E.EVP_EncryptUpdate (first_EncryptInit E G d s).2 p).2.2 ++ w2, ?_, ?_, hVlen,
        ?_, ?_⟩
      · simp only [update_chunks]
        rw [if_neg (by rw [hu]; decide), i1]
      · rw [hwire, List.append_assoc]
      · rw [i3, g3]
      · rw [i2, g7]; simp

/-- C7 on a fresh link with a 2-byte IV: "hello" and then `[9, 8, 7]` are
encrypted on socket 3; the wire carries the IV `[1, 2]` once, then the eight
cipher bytes. -/
theorem wire_layout_witness :
    ∃ w0 : Bytes,
      update_chunks xor_env
        (first_EncryptInit xor_env tiny2 Dir.local_side (fresh_sys 3 8 16)).2
        [hello, [9, 8, 7]] =
        some (w0, get_ctx Dir.local_side
          (crypto_encrypt xor_env tiny2 3 (load_text [9, 8, 7]
            (crypto_encrypt xor_env tiny2 3 (load_text hello (fresh_sys 3 8 16))).2)).2.ln) ∧
      [1, 2, 123, 113, 121, 122, 120, 17, 17, 29] = [1, 2] ++ w0 ∧
      (crypto_encrypt xor_env tiny2 3 (load_text [9, 8, 7]
        (crypto_encrypt xor_env tiny2 3 (load_text hello (fresh_sys 3 8 16))).2)).1 = 3 := by
  have h0 := ((wire_layout xor_env tiny2 3 Dir.local_side (by decide)).1
    (load_text [9, 8, 7] (crypto_encrypt xor_env tiny2 3 (load_text hello (fresh_sys 3 8 16))).2)
    (by decide) (by decide) (by decide)).1
  obtain ⟨w0, h1, h2, -, -, -⟩ := (wire_layout xor_env tiny2 3 Dir.local_side (by decide)).2
    (fresh_sys 3 8 16)
    (crypto_encrypt xor_env tiny2 3 (load_text [9, 8, 7]
      (crypto_encrypt xor_env tiny2 3 (load_text hello (fresh_sys 3 8 16))).2)).2
    hello [[9, 8, 7]] [1, 2, 123, 113, 121, 122, 120, 17, 17, 29]
    (by decide) (by decide) (by decide) (by decide)
  exact ⟨w0, h1, h2, h0⟩

/-! ## C8: buffer lifecycle -/

/-- C8. Whenever `crypto_encrypt` returns a non-negative value, `text_len` is 0
afterwards and the value is the link's `cipher_len`; whenever `crypto_decrypt`
returns a non-negative value, `cipher_len` is 0 afterwards and the value is the
link's `text_len`. -/
theorem buffer_lifecycle (E : Env Ctx R) (G : Globals) (sockfd : Int) (s : Sys Ctx R) :
    (0 ≤ (crypto_encrypt E G sockfd s).1 →
      (crypto_encrypt E G sockfd s).2.ln.text_len = 0 ∧
      (crypto_encrypt E G sockfd s).1 = ((crypto_encrypt E G sockfd s).2.ln.cipher_len : Int)) ∧
    (0 ≤ (crypto_decrypt E G sockfd s).1 →
      (crypto_decrypt E G sockfd s).2.ln.cipher_len = 0 ∧
      (crypto_decrypt E G sockfd s).1 = ((crypto_decrypt E G sockfd s).2.ln.text_len : Int)) := by
  constructor
  · intro hok
    have hne : (crypto_encrypt E G sockfd s).1 ≠ -1 := by omega
    cases hd : direction sockfd s.ln with
    | none => rw [crypto_encrypt_unknown E G sockfd s hd] at hne; exact absurd rfl hne
    | some d =>
      by_cases hs : s.ln.state &&& E.SS_IV_SENT = 0
      · obtain ⟨hr, hi, hu, hfit⟩ := crypto_encrypt_first_inv E G sockfd s d hd hs hne
        rw [crypto_encrypt_first_eq E G sockfd s d hd hs hr hi hu hfit]
        simp
      · rw [crypto_encrypt_sent E G sockfd s d hd hs] at hne ⊢
        split_ifs at hne ⊢ with hu
        · exact absurd rfl hne
        · simp
  · intro hok
    have hne : (crypto_decrypt E G sockfd s).1 ≠ -1 := by omega
    cases hd : direction sockfd s.ln with
    | none => rw [crypto_decrypt_unknown E G sockfd s hd] at hne; exact absurd rfl hne
    | some d =>
      by_cases hs : s.ln.state &&& E.SS_IV_RECEIVED = 0
      · obtain ⟨hrm, hi, hu⟩ := crypto_decrypt_first_inv E G sockfd s d hd hs hne
        rw [crypto_decrypt_first_eq E G sockfd s d hd hs hrm hi hu]
        simp
      · rw [crypto_decrypt_received E G sockfd s d hd hs] at hne ⊢
        split_ifs at hne ⊢ with hu
        · exact absurd rfl hne
        · simp

/-- C8 on a fresh link: the first encrypt of "hello" (16-byte IV) returns
`cipher_len` and leaves `text_len = 0`; the decrypt of five buffered bytes
(2-byte IV) returns `text_len` and leaves `cipher_len = 0`. -/
theorem buffer_lifecycle_witness :
    ((crypto_encrypt xor_env aes128 3 (load_text hello (fresh_sys 17 32 64))).2.ln.text_len = 0 ∧
      (crypto_encrypt xor_env aes128 3 (load_text hello (fresh_sys 17 32 64))).1 =
        ((crypto_encrypt xor_env aes128 3
          (load_text hello (fresh_sys 17 32 64))).2.ln.cipher_len : Int)) ∧
    ((crypto_decrypt xor_env tiny2 3
        (load_cipher [1, 2, 50, 60, 70] (fresh_sys 3 8 8))).2.ln.cipher_len = 0 ∧
      (crypto_decrypt xor_env tiny2 3 (load_cipher [1, 2, 50, 60, 70] (fresh_sys 3 8 8))).1 =
        ((crypto_decrypt xor_env tiny2 3
          (load_cipher [1, 2, 50, 60, 70] (fresh_sys 3 8 8))).2.ln.text_len : Int)) :=
  ⟨(buffer_lifecycle xor_env aes128 3 (load_text hello (fresh_sys 17 32 64))).1 (by decide),
   (buffer_lifecycle xor_env tiny2 3 (load_cipher [1, 2, 50, 60, 70] (fresh_sys 3 8 8))).2
     (by decide)⟩

/-! ## C9: a failed encrypt leaves the plaintext alone -/

/-- C9. Whenever `crypto_encrypt` returns -1, the text buffer and `text_len` are
exactly what they were before the call. -/
theorem failed_encrypt_keeps_text (E : Env Ctx R) (G : Globals) (sockfd : Int)
    (s : Sys Ctx R) (hfail : (crypto_encrypt E G sockfd s).1 = -1) :
    (crypto_encrypt E G sockfd s).2.ln.text = s.ln.text ∧
    (crypto_encrypt E G sockfd s).2.ln.text_len = s.ln.text_len :=
  ⟨(crypto_encrypt_fail_frame E G sockfd s hfail).1,
   (crypto_encrypt_fail_frame E G sockfd s hfail).2.1⟩

/-- C9 where `add_data` refuses the IV: the cipher buffer of the link has room
for 6 bytes, "hello" and a 2-byte IV need 7. -/
theorem failed_encrypt_keeps_text_witness :
    (crypto_encrypt xor_env tiny2 3 (load_text hello (fresh_sys 3 8 6))).1 = -1 ∧
    (crypto_encrypt xor_env tiny2 3 (load_text hello (fresh_sys 3 8 6))).2.ln.text =
      [104, 101, 108, 108, 111, 0, 0, 0] ∧
    (crypto_encrypt xor_env tiny2 3 (load_text hello (fresh_sys 3 8 6))).2.ln.text_len = 5 :=
  ⟨by decide,
   failed_encrypt_keeps_text xor_env tiny2 3 (load_text hello (fresh_sys 3 8 6)) (by decide)⟩

/-! ## C10: `SS_IV_SENT` is set only once the IV is queued -/

/-- C10. On a link with `SS_IV_SENT` clear, after `crypto_encrypt` the flag is
set if and only if the call returned a non-negative value; in that case the
cipher buffer begins with the IV held in the direction's IV buffer; and when
`add_data` has no room for the IV behind the transform's output, the call
returns -1 and `SS_IV_SENT` stays clear. -/
theorem iv_sent_only_after_queued (E : Env Ctx R) (G : Globals) (sockfd : Int)
    (s : Sys Ctx R) (hmS : E.SS_IV_SENT ≠ 0) (hs : s.ln.state &&& E.SS_IV_SENT = 0) :
    ((crypto_encrypt E G sockfd s).2.ln.state &&& E.SS_IV_SENT ≠ 0 ↔
      0 ≤ (crypto_encrypt E G sockfd s).1) ∧
    (∀ d : Dir, direction sockfd s.ln = some d → 0 ≤ (crypto_encrypt E G sockfd s).1 →
      ∃ rest : Bytes,
        (crypto_encrypt E G sockfd s).2.ln.cipher.take
            (crypto_encrypt E G sockfd s).2.ln.cipher_len =
          (get_iv d (crypto_encrypt E G sockfd s).2.ln).take G.iv_len ++ rest) ∧
    (∀ d : Dir, direction sockfd s.ln = some d →
      ¬ ((first_EncryptUpdate E G d s).2.2.length + G.iv_len ≤
          max (first_EncryptUpdate E G d s).2.2.length s.ln.cipher.length) →
      (crypto_encrypt E G sockfd s).1 = -1 ∧
      (crypto_encrypt E G sockfd s).2.ln.state &&& E.SS_IV_SENT = 0) := by
  refine ⟨⟨?_, ?_⟩, ?_, ?_⟩
  · intro hset
    rcases crypto_encrypt_ret E G sockfd s with hfail | hok
    · rw [(crypto_encrypt_fail_frame E G sockfd s hfail).2.2] at hset
      exact absurd hs hset
    · exact hok
  · intro hok
    exact crypto_encrypt_ok_flag E G sockfd s hmS (by omega)
  · intro d hd hok
    obtain ⟨-, -, g3, -, -, -, -, g8, g9⟩ :=
      crypto_encrypt_first_facts E G sockfd s d hd hs (by omega)
    rw [g3, g8, g9, List.append_assoc, List.take_append_eq_append_take]
    have hle : ((iv_generated E G d s).take G.iv_len).length ≤
        (first_EncryptUpdate E G d s).2.2.length + G.iv_len := by
      rw [List.length_take]; omega
    rw [List.take_of_length_le hle]
    exact ⟨_, rfl⟩
  · intro d hd hfit
    have hfail : (crypto_encrypt E G sockfd s).1 = -1 := by
      by_contra hne
      exact hfit (crypto_encrypt_first_inv E G sockfd s d hd hs hne).2.2.2
    refine ⟨hfail, ?_⟩
    rw [(crypto_encrypt_fail_frame E G sockfd s hfail).2.2]
    exact hs

/-- C10 on two fresh links with a 2-byte IV: with room for 16 cipher bytes the
encrypt of "hello" returns 7, sets `SS_IV_SENT` and the cipher buffer begins
with the IV `[1, 2]`; with room for 6 bytes `add_data` refuses the IV, the call
returns -1 and `SS_IV_SENT` stays clear. -/
theorem iv_sent_only_after_queued_witness :
    ((crypto_encrypt xor_env tiny2 3 (load_text hello (fresh_sys 3 8 16))).2.ln.state
        &&& xor_env.SS_IV_SENT ≠ 0 ↔
      0 ≤ (crypto_encrypt xor_env tiny2 3 (load_text hello (fresh_sys 3 8 16))).1) ∧
    (∃ rest : Bytes,
      (crypto_encrypt xor_env tiny2 3 (load_text hello (fresh_sys 3 8 16))).2.ln.cipher.take
          (crypto_encrypt xor_env tiny2 3 (load_text hello (fresh_sys 3 8 16))).2.ln.cipher_len =
        (get_iv Dir.local_side
          (crypto_encrypt xor_env tiny2 3 (load_text hello (fresh_sys 3 8 16))).2.ln).take
            tiny2.iv_len ++ rest) ∧
    ((crypto_encrypt xor_env tiny2 3 (load_text hello (fresh_sys 3 8 6))).1 = -1 ∧
      (crypto_encrypt xor_env tiny2 3 (load_text hello (fresh_sys 3 8 6))).2.ln.state
        &&& xor_env.SS_IV_SENT = 0) :=
  ⟨(iv_sent_only_after_queued xor_env tiny2 3 (load_text hello (fresh_sys 3 8 16))
      (by decide) (by decide)).1,
   (iv_sent_only_after_queued xor_env tiny2 3 (load_text hello (fresh_sys 3 8 16))
      (by decide) (by decide)).2.1 Dir.local_side (by decide) (by decide),
   (iv_sent_only_after_queued xor_env tiny2 3 (load_text hello (fresh_sys 3 8 6))
      (by decide) (by decide)).2.2 Dir.local_side (by decide) (by decide)⟩

/-! ## C11: the allow-list and the method argument -/

/-- C11 does not hold of the code: `get_method` never looks at
`supported_method` and never reads its `method` argument. With a library that
knows "aes-128-ctr", a name that is not in `supported_method`, and that name
configured and passed as `method`, `get_method` and `crypto_init` return 0 with
that cipher selected instead of ending in the fatal error. And with "rc4"
configured while "aes-128-cfb" is passed as `method`, the cipher selected is
"rc4", not the one the argument names. -/
theorem get_method_skips_allow_list :
    "aes-128-ctr" ∉ supported_method ∧
    (∃ st : Statics,
      get_method demo_lib { method := "aes-128-ctr" } statics0 test_pw "aes-128-ctr" =
        Outcome.returned 0 st ∧
      st.evp_cipher = some { name := "aes-128-ctr", key_length := 16, iv_length := 16 }) ∧
    (∃ st : Statics,
      crypto_init demo_lib { method := "aes-128-ctr" } statics0 test_pw "aes-128-ctr" =
        Outcome.returned 0 st ∧
      st.evp_cipher = some { name := "aes-128-ctr", key_length := 16, iv_length := 16 }) ∧
    "aes-128-cfb" ∈ supported_method ∧
    (∃ st : Statics,
      get_method demo_lib { method := "rc4" } statics0 test_pw "aes-128-cfb" =
        Outcome.returned 0 st ∧
      st.evp_cipher = some { name := "rc4", key_length := 16, iv_length := 0 }) := by
  refine ⟨by decide, ⟨_, rfl, rfl⟩, ⟨_, rfl, rfl⟩, by decide, ⟨_, rfl, rfl⟩⟩

/-! ## C12: the cipher buffer after a failed decrypt -/

/-- What `receive_iv` leaves in the cipher buffer when at least `iv_len` bytes
are buffered: the bytes `rm_data` shifted to the front. -/
theorem receive_iv_strips (E : Env Ctx R) (G : Globals) (sockfd : Int) (s : Sys Ctx R)
    (d : Dir) (hd : direction sockfd s.ln = some d) (hrm : G.iv_len ≤ s.ln.cipher_len) :
    (receive_iv E G sockfd s).1 = 0 ∧
    (receive_iv E G sockfd s).2.ln.cipher = (rm_data s.ln G.iv_len).2.cipher ∧
    (receive_iv E G sockfd s).2.ln.cipher_len = s.ln.cipher_len - G.iv_len := by
  unfold receive_iv rm_data
  simp [hd, hrm]

/-- After its IV-ensure step `crypto_decrypt` writes the cipher buffer no more;
only a successful call resets `cipher_len`. -/
theorem crypto_decrypt_fail_cipher (E : Env Ctx R) (G : Globals) (sockfd : Int)
    (s : Sys Ctx R) (hfail : (crypto_decrypt E G sockfd s).1 = -1) :
    (crypto_decrypt E G sockfd s).2.ln.cipher =
      (check_cipher E G sockfd s "decrypt").2.ln.cipher ∧
    (crypto_decrypt E G sockfd s).2.ln.cipher_len =
      (check_cipher E G sockfd s "decrypt").2.ln.cipher_len ∧
    (crypto_decrypt E G sockfd s).2.ln.state =
      (check_cipher E G sockfd s "decrypt").2.ln.state := by
  unfold crypto_decrypt at hfail ⊢
  simp only [check_cipher_direction] at hfail ⊢
  cases hd : direction sockfd s.ln with
  | none =>
    simp only [hd] at hfail ⊢
    split_ifs <;> exact ⟨rfl, rfl, rfl⟩
  | some d =>
    simp only [hd] at hfail ⊢
    split_ifs at hfail ⊢
    · exact ⟨rfl, rfl, rfl⟩
    · simp

/-- The cipher buffer after the "decrypt" IV-ensure step. -/
theorem check_cipher_decrypt_cipher (E : Env Ctx R) (G : Globals) (sockfd : Int)
    (s : Sys Ctx R) (d : Dir) (hd : direction sockfd s.ln = some d)
    (hrecv : s.ln.state &&& E.SS_IV_RECEIVED = 0) :
    (check_cipher E G sockfd s "decrypt").2.ln.cipher = (receive_iv E G sockfd s).2.ln.cipher ∧
    (check_cipher E G sockfd s "decrypt").2.ln.cipher_len =
      (receive_iv E G sockfd s).2.ln.cipher_len ∧
    (check_cipher E G sockfd s "decrypt").2.ln.state =
      (receive_iv E G sockfd s).2.ln.state := by
  unfold check_cipher check_cipher_decrypt
  simp only [hd]
  have hne : ¬ ("decrypt" = "encrypt" ∧ s.ln.state &&& E.SS_IV_SENT = 0) :=
    fun h => absurd h.1 (by decide)
  rw [if_neg hne, if_pos ⟨trivial, hrecv⟩]
  split_ifs <;> simp

/-- What `receive_iv` leaves when fewer than `iv_len` bytes are buffered: the
cipher buffer, its length and `ln->state` as they were. -/
theorem receive_iv_short (E : Env Ctx R) (G : Globals) (sockfd : Int) (s : Sys Ctx R)
    (hshort : s.ln.cipher_len < G.iv_len) :
    (receive_iv E G sockfd s).2.ln.cipher = s.ln.cipher ∧
    (receive_iv E G sockfd s).2.ln.cipher_len = s.ln.cipher_len ∧
    (receive_iv E G sockfd s).2.ln.state = s.ln.state := by
  have hrm : ¬ G.iv_len ≤ s.ln.cipher_len := by omega
  unfold receive_iv rm_data
  cases direction sockfd s.ln <;> simp [hrm]

/-- C12, as stated, fails. Five bytes `[1, 2, 50, 60, 70]` are buffered on a
fresh link with a 2-byte IV and `EVP_DecryptInit_ex` fails: `crypto_decrypt`
returns -1, but `receive_iv` had already stripped the IV, so `cipher_len` went
from 5 to 3 and the buffer starts with `[50, 60, 70]` instead of
`[1, 2, 50, 60, 70]`. -/
theorem failed_first_decrypt_has_stripped_iv :
    (load_cipher [1, 2, 50, 60, 70] (fresh_sys 3 8 8)).ln.cipher_len = 5 ∧
    (load_cipher [1, 2, 50, 60, 70] (fresh_sys 3 8 8)).ln.cipher =
      [1, 2, 50, 60, 70, 0, 0, 0] ∧
    (crypto_decrypt init_fail_env tiny2 3
      (load_cipher [1, 2, 50, 60, 70] (fresh_sys 3 8 8))).1 = -1 ∧
    (crypto_decrypt init_fail_env tiny2 3
      (load_cipher [1, 2, 50, 60, 70] (fresh_sys 3 8 8))).2.ln.cipher_len = 3 ∧
    (crypto_decrypt init_fail_env tiny2 3
      (load_cipher [1, 2, 50, 60, 70] (fresh_sys 3 8 8))).2.ln.cipher =
      [50, 60, 70, 60, 70, 0, 0, 0] := by
  decide

/-- C12, amended. Whenever `crypto_decrypt` returns -1, `cipher_len` and the
cipher bytes are what they were before the call if the socket is unknown, or
`SS_IV_RECEIVED` was already set, or fewer than `iv_len` bytes were buffered. On
a first decrypt (known socket, `SS_IV_RECEIVED` clear, at least `iv_len` bytes
buffered) `receive_iv` has consumed the IV before the cipher can fail: after a
failure of `EVP_DecryptInit_ex` or `EVP_DecryptUpdate` the cipher buffer is what
`rm_data` left (the IV removed, the rest shifted to the front) and `cipher_len`
is `iv_len` smaller. -/
theorem failed_decrypt_cipher_buffer (E : Env Ctx R) (G : Globals) (sockfd : Int)
    (s : Sys Ctx R) (hfail : (crypto_decrypt E G sockfd s).1 = -1) :
    ((direction sockfd s.ln = none ∨ s.ln.state &&& E.SS_IV_RECEIVED ≠ 0 ∨
        s.ln.cipher_len < G.iv_len) →
      (crypto_decrypt E G sockfd s).2.ln.cipher = s.ln.cipher ∧
      (crypto_decrypt E G sockfd s).2.ln.cipher_len = s.ln.cipher_len) ∧
    (direction sockfd s.ln ≠ none → s.ln.state &&& E.SS_IV_RECEIVED = 0 →
        G.iv_len ≤ s.ln.cipher_len →
      (crypto_decrypt E G sockfd s).2.ln.cipher = (rm_data s.ln G.iv_len).2.cipher ∧
      (crypto_decrypt E G sockfd s).2.ln.cipher_len = s.ln.cipher_len - G.iv_len) := by
  obtain ⟨hc, hl, -⟩ := crypto_decrypt_fail_cipher E G sockfd s hfail
  constructor
  · intro h
    cases hd : direction sockfd s.ln with
    | none => rw [crypto_decrypt_unknown E G sockfd s hd]; exact ⟨rfl, rfl⟩
    | some d =>
      by_cases hr : s.ln.state &&& E.SS_IV_RECEIVED = 0
      · rcases h with h | h | h
        · rw [hd] at h; exact absurd h (by simp)
        · exact absurd hr h
        · obtain ⟨k1, k2, -⟩ := check_cipher_decrypt_cipher E G sockfd s d hd hr
          obtain ⟨r1, r2, -⟩ := receive_iv_short E G sockfd s h
          exact ⟨by rw [hc, k1, r1], by rw [hl, k2, r2]⟩
      · have hcc := check_cipher_noop E G sockfd s "decrypt" d hd
          (fun h => absurd h (by decide)) (fun _ => hr)
        rw [hcc] at hc hl
        exact ⟨hc, hl⟩
  · intro hdir hr hrm
    cases hd : direction sockfd s.ln with
    | none => exact absurd hd hdir
    | some d =>
      obtain ⟨k1, k2, -⟩ := check_cipher_decrypt_cipher E G sockfd s d hd hr
      obtain ⟨-, r1, r2⟩ := receive_iv_strips E G sockfd s d hd hrm
      exact ⟨by rw [hc, k1, r1], by rw [hl, k2, r2]⟩

/-- C12, amended, where `EVP_DecryptInit_ex` fails on a first decrypt with five
bytes buffered and a 2-byte IV: three bytes are left, shifted to the front. -/
theorem failed_decrypt_cipher_buffer_witness :
    (crypto_decrypt init_fail_env tiny2 3
      (load_cipher [1, 2, 50, 60, 70] (fresh_sys 3 8 8))).2.ln.cipher =
      (rm_data (load_cipher [1, 2, 50, 60, 70] (fresh_sys 3 8 8)).ln tiny2.iv_len).2.cipher ∧
    (crypto_decrypt init_fail_env tiny2 3
      (load_cipher [1, 2, 50, 60, 70] (fresh_sys 3 8 8))).2.ln.cipher_len = 5 - 2 :=
  (failed_decrypt_cipher_buffer init_fail_env tiny2 3
    (load_cipher [1, 2, 50, 60, 70] (fresh_sys 3 8 8)) (by decide)).2
    (by decide) (by decide) (by decide)

/-! ## C13: the handshake flags only grow -/

/-- Setting more bits keeps a set bit set. -/
theorem or_keeps_bits (s x m : Nat) (h : s &&& m ≠ 0) : (s ||| x) &&& m ≠ 0 := by
  intro h0
  apply h
  apply Nat.eq_of_testBit_eq
  intro i
  have hi := congrArg (fun n => n.testBit i) h0
  simp only [Nat.testBit_and, Nat.testBit_or, Nat.zero_testBit] at hi ⊢
  cases hs : s.testBit i <;> cases hm : m.testBit i <;> simp_all

/-- The "decrypt" role of `check_cipher` leaves `ln->state` as it was or with
`SS_IV_RECEIVED` added; every other role leaves it as it was. -/
theorem check_cipher_state_cases (E : Env Ctx R) (G : Globals) (sockfd : Int)
    (s : Sys Ctx R) (type : String) :
    (check_cipher E G sockfd s type).2.ln.state = s.ln.state ∨
    (check_cipher E G sockfd s type).2.ln.state = s.ln.state ||| E.SS_IV_RECEIVED := by
  unfold check_cipher check_cipher_encrypt check_cipher_decrypt
  cases direction sockfd s.ln with
  | none => exact Or.inl rfl
  | some d =>
    simp only []
    rcases receive_iv_state E G sockfd s with ⟨-, h⟩ | ⟨-, h⟩ <;>
      split_ifs <;> simp [h]

/-- The function `crypto_decrypt` leaves `ln->state` as its IV-ensure step left
it. -/
theorem crypto_decrypt_state (E : Env Ctx R) (G : Globals) (sockfd : Int) (s : Sys Ctx R) :
    (crypto_decrypt E G sockfd s).2.ln.state =
      (check_cipher E G sockfd s "decrypt").2.ln.state := by
  unfold crypto_decrypt
  simp only [check_cipher_direction]
  cases direction sockfd s.ln <;> simp only [] <;> split_ifs <;> simp

/-- The function `crypto_encrypt` leaves `ln->state` as it was or with
`SS_IV_SENT` added. -/
theorem crypto_encrypt_state_cases (E : Env Ctx R) (G : Globals) (sockfd : Int)
    (s : Sys Ctx R) :
    (crypto_encrypt E G sockfd s).2.ln.state = s.ln.state ∨
    (crypto_encrypt E G sockfd s).2.ln.state = s.ln.state ||| E.SS_IV_SENT := by
  by_cases hfail : (crypto_encrypt E G sockfd s).1 = -1
  · exact Or.inl (crypto_encrypt_fail_frame E G sockfd s hfail).2.2
  · cases hd : direction sockfd s.ln with
    | none => rw [crypto_encrypt_unknown E G sockfd s hd]; exact Or.inl rfl
    | some d =>
      by_cases hs : s.ln.state &&& E.SS_IV_SENT = 0
      · exact Or.inr (crypto_encrypt_first_facts E G sockfd s d hd hs hfail).2.1
      · exact Or.inl (crypto_encrypt_sent_facts E G sockfd s d hd hs).2.2.2.2.2.1

/-- One step never clears a bit of `ln->state`. -/
theorem run_op_keeps_bits (E : Env Ctx R) (G : Globals) (o : Op) (s : Sys Ctx R) (m : Nat)
    (h : s.ln.state &&& m ≠ 0) : (run_op E G o s).ln.state &&& m ≠ 0 := by
  cases o with
  | add_iv fd =>
    simp only [run_op]
    rcases add_iv_state E G fd s with ⟨-, h1⟩ | ⟨-, h1⟩ <;> rw [h1]
    · exact or_keeps_bits _ _ _ h
    · exact h
  | receive_iv fd =>
    simp only [run_op]
    rcases receive_iv_state E G fd s with ⟨-, h1⟩ | ⟨-, h1⟩ <;> rw [h1]
    · exact or_keeps_bits _ _ _ h
    · exact h
  | check_cipher fd type =>
    simp only [run_op]
    rcases check_cipher_state_cases E G fd s type with h1 | h1 <;> rw [h1]
    · exact h
    · exact or_keeps_bits _ _ _ h
  | crypto_encrypt fd =>
    simp only [run_op]
    rcases crypto_encrypt_state_cases E G fd s with h1 | h1 <;> rw [h1]
    · exact h
    · exact or_keeps_bits _ _ _ h
  | crypto_decrypt fd =>
    simp only [run_op]
    rw [crypto_decrypt_state]
    rcases check_cipher_state_cases E G fd s "decrypt" with h1 | h1 <;> rw [h1]
    · exact h
    · exact or_keeps_bits _ _ _ h
  | fill_text buf len => exact h
  | fill_cipher buf len => exact h

/-- A sequence of steps never clears a bit of `ln->state`. -/
theorem run_ops_keeps_bits (E : Env Ctx R) (G : Globals) (os : List Op) (m : Nat) :
    ∀ s : Sys Ctx R, s.ln.state &&& m ≠ 0 → (run_ops E G os s).ln.state &&& m ≠ 0 := by
  induction os with
  | nil => intro s h; exact h
  | cons o os ih =>
    intro s h
    exact ih _ (run_op_keeps_bits E G o s m h)

/-- C13. Whatever the link state, the socket and the outcome, none of `add_iv`,
`receive_iv`, `check_cipher`, `crypto_encrypt` and `crypto_decrypt` clears
`SS_IV_SENT` or `SS_IV_RECEIVED`: a handshake flag that is set before the call is
set after it. Hence along any sequence of such calls, with the I/O layer
refilling the buffers in between, a flag that is set stays set. -/
theorem handshake_flags_monotonic (E : Env Ctx R) (G : Globals) (sockfd : Int)
    (type : String) (os : List Op) (s : Sys Ctx R) (m : Nat)
    (hm : m = E.SS_IV_SENT ∨ m = E.SS_IV_RECEIVED)
    (h : s.ln.state &&& m ≠ 0) :
    (add_iv E G sockfd s).2.ln.state &&& m ≠ 0 ∧
    (receive_iv E G sockfd s).2.ln.state &&& m ≠ 0 ∧
    (check_cipher E G sockfd s type).2.ln.state &&& m ≠ 0 ∧
    (crypto_encrypt E G sockfd s).2.ln.state &&& m ≠ 0 ∧
    (crypto_decrypt E G sockfd s).2.ln.state &&& m ≠ 0 ∧
    (run_ops E G os s).ln.state &&& m ≠ 0 :=
  ⟨run_op_keeps_bits E G (Op.add_iv sockfd) s m h,
   run_op_keeps_bits E G (Op.receive_iv sockfd) s m h,
   run_op_keeps_bits E G (Op.check_cipher sockfd type) s m h,
   run_op_keeps_bits E G (Op.crypto_encrypt sockfd) s m h,
   run_op_keeps_bits E G (Op.crypto_decrypt sockfd) s m h,
   run_ops_keeps_bits E G os m s h⟩

/-- C13 on a link with a 2-byte IV whose first encrypt has set `SS_IV_SENT`:
the flag is still set after a decrypt that fails for want of bytes, an encrypt
on an unknown socket, and a second successful encrypt. -/
theorem handshake_flags_monotonic_witness :
    (run_ops xor_env tiny2
      [Op.fill_cipher [9, 0, 0, 0, 0, 0, 0, 0] 1, Op.crypto_decrypt 4, Op.crypto_encrypt 9,
       Op.fill_text [5, 6, 0, 0, 0, 0, 0, 0] 2, Op.crypto_encrypt 3]
      (crypto_encrypt xor_env tiny2 3 (load_text hello (fresh_sys 3 8 16))).2).ln.state
      &&& xor_env.SS_IV_SENT ≠ 0 :=
  (handshake_flags_monotonic xor_env tiny2 3 "encrypt"
    [Op.fill_cipher [9, 0, 0, 0, 0, 0, 0, 0] 1, Op.crypto_decrypt 4, Op.crypto_encrypt 9,
     Op.fill_text [5, 6, 0, 0, 0, 0, 0, 0] 2, Op.crypto_encrypt 3]
    (crypto_encrypt xor_env tiny2 3 (load_text hello (fresh_sys 3 8 16))).2
    xor_env.SS_IV_SENT (Or.inl rfl) (by decide)).2.2.2.2.2

/-! ## C14: a socket that is neither of the link's two -/

/-- C14. For a socket identifier equal to neither `ln->local_sockfd` nor
`ln->server_sockfd`, `crypto_encrypt` and `crypto_decrypt` return -1 and the
whole state is as before: the link with its flags, lengths, buffers, IV buffers
and contexts, the random generator (no byte drawn) and the record of library
calls (none made). -/
theorem unknown_socket_changes_nothing (E : Env Ctx R) (G : Globals) (sockfd : Int)
    (s : Sys Ctx R) (h1 : sockfd ≠ s.ln.local_sockfd) (h2 : sockfd ≠ s.ln.server_sockfd) :
    crypto_encrypt E G sockfd s = (-1, s) ∧ crypto_decrypt E G sockfd s = (-1, s) :=
  ⟨crypto_encrypt_unknown E G sockfd s ((direction_eq_none sockfd s.ln).2 ⟨h1, h2⟩),
   crypto_decrypt_unknown E G sockfd s ((direction_eq_none sockfd s.ln).2 ⟨h1, h2⟩)⟩

/-- C14 on a link with sockets 3 and 4 and "hello" in the text buffer: socket 9
is refused by both functions. -/
theorem unknown_socket_changes_nothing_witness :
    crypto_encrypt xor_env aes128 9 (load_text hello (fresh_sys 17 32 64)) =
      (-1, load_text hello (fresh_sys 17 32 64)) ∧
    crypto_decrypt xor_env aes128 9 (load_text hello (fresh_sys 17 32 64)) =
      (-1, load_text hello (fresh_sys 17 32 64)) :=
  unknown_socket_changes_nothing xor_env aes128 9 (load_text hello (fresh_sys 17 32 64))
    (by decide) (by decide)

/-! ## C15: the `method` argument plays no part -/

/-- C15. For every password and any two `method` arguments, with the same
`ss_opt.method` (and the same library and starting storage), `get_method` has
the same outcome and leaves the same `evp_cipher`, `md`, `key`, `key_len` and
`iv_len`, and so does `crypto_init`; and `crypto_init` never returns -1: it
returns 0, exactly when `get_method` returns, or the process exits in
`get_method`. -/
theorem method_argument_is_ignored (L : KeyLib) (ss_opt : ss_option) (st : Statics)
    (password : Bytes) (m1 m2 : String) :
    get_method L ss_opt st password m1 = get_method L ss_opt st password m2 ∧
    crypto_init L ss_opt st password m1 = crypto_init L ss_opt st password m2 ∧
    (∀ st1 : Statics, crypto_init L ss_opt st password m1 ≠ Outcome.returned (-1) st1) ∧
    (get_method L ss_opt st password m1 = Outcome.exited ∧
        crypto_init L ss_opt st password m1 = Outcome.exited ∨
      ∃ st1 : Statics, get_method L ss_opt st password m1 = Outcome.returned 0 st1 ∧
        crypto_init L ss_opt st password m1 = Outcome.returned 0 st1) := by
  have hcases : get_method L ss_opt st password m1 = Outcome.exited ∨
      ∃ st1 : Statics, get_method L ss_opt st password m1 = Outcome.returned 0 st1 := by
    unfold get_method
    cases L.EVP_get_digestbyname "MD5" with
    | none => exact Or.inl rfl
    | some md =>
      cases L.EVP_get_cipherbyname ss_opt.method with
      | none => exact Or.inl rfl
      | some c =>
        simp only []
        split_ifs
        · exact Or.inl rfl
        · exact Or.inr ⟨_, rfl⟩
  refine ⟨rfl, rfl, ?_, ?_⟩
  · intro st1 h
    rcases hcases with he | ⟨st2, hr⟩
    · simp [crypto_init, he] at h
    · simp [crypto_init, hr] at h
  · rcases hcases with he | ⟨st2, hr⟩
    · exact Or.inl ⟨he, by simp [crypto_init, he]⟩
    · exact Or.inr ⟨st2, hr, by simp [crypto_init, hr]⟩

end Lemmas

end Crypto
